import Mathlib

/-!
# Super-Simple Tasker (SST): a shallow embedding of the blinky/button example

The development embeds the board-support packages (BSP) and the application
active objects (AO) found in the sources:

* `sst0_c/examples/blinky_button/bsp_nucleo-h743zi.c`
* `sst0_cpp/examples/blinky_button/bsp_nucleo-h743zi.cpp`
* `sst_cpp/examples/blinky_button/bsp_nucleo-l053r8.cpp`
* `examples/blinky_button/button2b.c`
* `sst0_cpp/examples/blinky_button/blinky3.cpp`
* `src_cpp/sst.hpp`, `src_cpp/qassert.h`

Stateful C code is embedded as explicit state passing.  Every function returns
the new state together with the trace of externally visible actions (LED
writes, event posts, calls into the kernel) in program order.  The machine
words involved are `uint32_t` values represented as natural numbers below
`2 ^ 32`.
-/

namespace SST

/-! ## Signals, events and active objects -/

/-- The type `SST::Signal` of `sst.hpp`: an unsigned 16-bit tag. -/
abbrev Signal := Nat

/-- The numeric values of the signal enumerators used by the sources.  They
are declared in `blinky_button.h` / `blinky_button.hpp`, which is not among
the sources, so the embedding takes the assignment as a parameter. -/
structure AppSignals where
  TICK_SIG : Signal
  TIMEOUT_SIG : Signal
  BUTTON_PRESSED_SIG : Signal
  BUTTON_RELEASED_SIG : Signal
  BLINKY_WORK_SIG : Signal
  FORWARD_PRESSED_SIG : Signal
  FORWARD_RELEASED_SIG : Signal
deriving DecidableEq, Repr

/-- The button signals are pairwise different enumerators. -/
def AppSignals.ButtonSigsDistinct (S : AppSignals) : Prop :=
  [S.BUTTON_PRESSED_SIG, S.BUTTON_RELEASED_SIG,
   S.FORWARD_PRESSED_SIG, S.FORWARD_RELEASED_SIG].Nodup

instance (S : AppSignals) : Decidable S.ButtonSigsDistinct := by
  unfold AppSignals.ButtonSigsDistinct; infer_instance

/-- One assignment of the enumerators, used to instantiate theorems at a
concrete input: the tick and timeout signals in the range `0..=3` that the
framework reserves, the application signals from 4 on. -/
def sigEnum : AppSignals where
  TICK_SIG := 0
  TIMEOUT_SIG := 0
  BUTTON_PRESSED_SIG := 4
  BUTTON_RELEASED_SIG := 5
  BLINKY_WORK_SIG := 6
  FORWARD_PRESSED_SIG := 7
  FORWARD_RELEASED_SIG := 8

/-- An event object as the receiver finds it in memory: the base `Evt` of
`sst.hpp`, or one of the two domain events that extend it by prefix embedding
(`ButtonWorkEvt` with `toggles`, `BlinkyWorkEvt` with `toggles` and `ticks`). -/
inductive Evt where
  | base (sig : Signal)
  | buttonWork (sig : Signal) (toggles : Nat)
  | blinkyWork (sig : Signal) (toggles : Nat) (ticks : Nat)
  /-- A time event, posted to its target when it fires; `addr` is the
  identity of the time-event object. -/
  | timeEvt (sig : Signal) (addr : Nat)
deriving DecidableEq, Repr

/-- The field `sig` of the base event, present in every event. -/
def Evt.sig : Evt → Signal
  | .base s => s
  | .buttonWork s _ => s
  | .blinkyWork s _ _ => s
  | .timeEvt s _ => s

/-- The opaque AO pointers of the application. -/
inductive AO where
  | AO_Blinky1
  | AO_Blinky3
  | AO_Button2a
  | AO_Button2b
deriving DecidableEq, Repr

/-- Externally visible actions of the application code, in program order.
The LED functions `d1on` ... `d6off` of the BSP are atomic actions here; the
floating-point exercise that some of them perform is not part of a trace. -/
inductive Action where
  | d1on | d1off
  | d2on | d2off
  | d3on | d3off
  | d6on | d6off
  /-- A call of `SST::TimeEvt::tick()`. -/
  | timeEvtTick
  /-- A read of the input data register `GPIOC->IDR`. -/
  | readGPIOC
  /-- A call of `post` on the AO with the given event. -/
  | post (ao : AO) (e : Evt)
  /-- The instruction `cpsid i`, which sets PRIMASK and so masks interrupts
  globally. -/
  | cpsid_i
  /-- A call of the CMSIS function `NVIC_SystemReset()`. -/
  | NVIC_SystemReset
  /-- The instruction `__WFI()`, wait for interrupt. -/
  | WFI
  /-- The port macro `SST_PORT_INT_ENABLE()`, which enables interrupts
  globally. -/
  | SST_PORT_INT_ENABLE
deriving DecidableEq, Repr

/-! ## The tick ISR of the three board-support packages -/

/-- The macro `B1_PIN` of all three BSPs. -/
def B1_PIN : Nat := 13

/-- Truncation to `uint32_t`. -/
def u32 (x : Nat) : Nat := x % 2 ^ 32

/-- Bitwise complement of a `uint32_t`. -/
def u32Not (x : Nat) : Nat := (2 ^ 32 - 1) ^^^ u32 x

/-- The function-static `struct ButtonsDebouncing` of `SysTick_Handler`. -/
structure ButtonsDebouncing where
  depressed : Nat
  previous : Nat
deriving DecidableEq, Repr

/-- The static initialiser `buttons = \x7b 0U, 0U \x7d`. -/
def ButtonsDebouncing.init : ButtonsDebouncing := { depressed := 0, previous := 0 }

/-- The handler `SysTick_Handler` of `sst0_c/.../bsp_nucleo-h743zi.c`
(lines 52-107).  The argument `idr` is the value read from `GPIOC->IDR`. -/
def SysTick_Handler_c (S : AppSignals) (buttons : ButtonsDebouncing) (idr : Nat) :
    ButtonsDebouncing × List Action :=
  -- static SST_Evt const tickEvt = { TICK_SIG };
  let tickEvt : Evt := .base S.TICK_SIG
  let current := u32 idr
  let tmp := buttons.depressed
  let depressed := buttons.depressed ||| (buttons.previous &&& current)
  let depressed := depressed &&& (buttons.previous ||| current)
  let previous := current
  let tmp := tmp ^^^ depressed
  let posts : List Action :=
    if (tmp &&& (1 <<< B1_PIN)) ≠ 0 then
      if (depressed &&& (1 <<< B1_PIN)) ≠ 0 then
        let pressEvt : Evt := .buttonWork S.BUTTON_PRESSED_SIG 60
        let fPressEvt : Evt := .buttonWork S.FORWARD_PRESSED_SIG 60
        [.post .AO_Button2a fPressEvt, .post .AO_Button2a pressEvt]
      else
        let releaseEvt : Evt := .buttonWork S.BUTTON_RELEASED_SIG 80
        let fReleaseEvt : Evt := .buttonWork S.FORWARD_RELEASED_SIG 80
        [.post .AO_Button2a fReleaseEvt, .post .AO_Button2a releaseEvt]
    else []
  ({ depressed := depressed, previous := previous },
   [.d1on, .post .AO_Blinky1 tickEvt, .post .AO_Blinky3 tickEvt, .readGPIOC]
     ++ posts ++ [.d1off])

/-- The handler `SysTick_Handler` of `sst0_cpp/.../bsp_nucleo-h743zi.cpp`
(lines 60-108). -/
def SysTick_Handler_cpp (S : AppSignals) (buttons : ButtonsDebouncing) (idr : Nat) :
    ButtonsDebouncing × List Action :=
  let current := u32 idr
  let tmp := buttons.depressed
  let depressed := buttons.depressed ||| (buttons.previous &&& current)
  let depressed := depressed &&& (buttons.previous ||| current)
  let previous := current
  let tmp := tmp ^^^ depressed
  let posts : List Action :=
    if (tmp &&& (1 <<< B1_PIN)) ≠ 0 then
      if (depressed &&& (1 <<< B1_PIN)) ≠ 0 then
        let pressEvt : Evt := .buttonWork S.BUTTON_PRESSED_SIG 60
        let fPressEvt : Evt := .buttonWork S.FORWARD_PRESSED_SIG 60
        [.post .AO_Button2a fPressEvt, .post .AO_Button2a pressEvt]
      else
        let releaseEvt : Evt := .buttonWork S.BUTTON_RELEASED_SIG 80
        let fReleaseEvt : Evt := .buttonWork S.FORWARD_RELEASED_SIG 80
        [.post .AO_Button2a fReleaseEvt, .post .AO_Button2a releaseEvt]
    else []
  ({ depressed := depressed, previous := previous },
   [.d1on, .timeEvtTick, .readGPIOC] ++ posts ++ [.d1off])

/-- The handler `SysTick_Handler` of `sst_cpp/.../bsp_nucleo-l053r8.cpp`
(lines 60-108).  The button is active-low: the sample is `~GPIOC->IDR`. -/
def SysTick_Handler_l053 (S : AppSignals) (buttons : ButtonsDebouncing) (idr : Nat) :
    ButtonsDebouncing × List Action :=
  let current := u32Not idr
  let tmp := buttons.depressed
  let depressed := buttons.depressed ||| (buttons.previous &&& current)
  let depressed := depressed &&& (buttons.previous ||| current)
  let previous := current
  let tmp := tmp ^^^ depressed
  let posts : List Action :=
    if (tmp &&& (1 <<< B1_PIN)) ≠ 0 then
      if (depressed &&& (1 <<< B1_PIN)) ≠ 0 then
        let pressEvt : Evt := .buttonWork S.BUTTON_PRESSED_SIG 60
        let fPressEvt : Evt := .buttonWork S.FORWARD_PRESSED_SIG 60
        [.post .AO_Button2a fPressEvt, .post .AO_Button2a pressEvt]
      else
        let releaseEvt : Evt := .buttonWork S.BUTTON_RELEASED_SIG 80
        let fReleaseEvt : Evt := .buttonWork S.FORWARD_RELEASED_SIG 80
        [.post .AO_Button2a fReleaseEvt, .post .AO_Button2a releaseEvt]
    else []
  ({ depressed := depressed, previous := previous },
   [.d1on, .timeEvtTick, .readGPIOC] ++ posts ++ [.d1off])

/-- Successive invocations of a tick handler, one per sample; the result is
the final debounce state and the trace of every invocation, in order. -/
def runTicks (handler : ButtonsDebouncing → Nat → ButtonsDebouncing × List Action) :
    ButtonsDebouncing → List Nat → ButtonsDebouncing × List (List Action)
  | b, [] => (b, [])
  | b, idr :: rest =>
    let r := handler b idr
    let rs := runTicks handler r.1 rest
    (rs.1, r.2 :: rs.2)

/-- The number of posts, within one trace, of an event with signal `sig` to
the active object `ao`. -/
def countPosts (ao : AO) (sig : Signal) (tr : List Action) : Nat :=
  tr.countP fun a =>
    match a with
    | .post ao' e => decide (ao' = ao) && decide (e.sig = sig)
    | _ => false

/-- The number of calls of an action in a trace. -/
def countAction (a : Action) (tr : List Action) : Nat := tr.count a

/-- The value of the port with only the B1 bit set. -/
def PIN : Nat := 1 <<< B1_PIN

/-- The samples of scenario S5. -/
def S5_reads : List Nat := [0, 0, PIN, PIN, 0]

/-- For each tick of scenario S5, the number of `BUTTON_PRESSED` and of
`BUTTON_RELEASED` events posted to the button AO by the given handler. -/
def S5_posts (S : AppSignals)
    (handler : AppSignals → ButtonsDebouncing → Nat → ButtonsDebouncing × List Action) :
    List Nat × List Nat :=
  let traces := (runTicks (handler S) ButtonsDebouncing.init S5_reads).2
  (traces.map (countPosts .AO_Button2a S.BUTTON_PRESSED_SIG),
   traces.map (countPosts .AO_Button2a S.BUTTON_RELEASED_SIG))

/-- The same counts when the pin reads 0 once more, at a sixth tick. -/
def S5_posts_six (S : AppSignals)
    (handler : AppSignals → ButtonsDebouncing → Nat → ButtonsDebouncing × List Action) :
    List Nat × List Nat :=
  let traces := (runTicks (handler S) ButtonsDebouncing.init (S5_reads ++ [0])).2
  (traces.map (countPosts .AO_Button2a S.BUTTON_PRESSED_SIG),
   traces.map (countPosts .AO_Button2a S.BUTTON_RELEASED_SIG))

/-- Scenario S5 as the specification words it: one press at the third tick,
one release at the fifth. -/
def S5_expected (S : AppSignals)
    (handler : AppSignals → ButtonsDebouncing → Nat → ButtonsDebouncing × List Action) :
    Prop :=
  S5_posts S handler = ([0, 0, 1, 0, 0], [0, 0, 0, 0, 1])

/-! ## The event queue of a task

`sst.hpp` declares the queue fields of `SST::Task` (`m_qBuf`, `m_end`,
`m_head`, `m_tail`, `m_nUsed`) and the operations `start` and `post`; their
bodies (and `activate`) live in the kernel and port sources, which are not
among the sources embedded here. -/

/-- Modelled from the spec: the ring-buffer queue of the data model,
`buf` (array of event references), `capacity`, `head`, `tail`, `n_used`;
the bodies of the queue operations are missing from the sources. -/
structure Queue (α : Type) where
  buf : List α
  capacity : Nat
  head : Nat
  tail : Nat
  n_used : Nat
deriving DecidableEq, Repr

/-- Modelled from the spec: the failure of `push` (the body of `post` is
missing from the sources). -/
inductive QueueError where
  | Overflow
deriving DecidableEq, Repr

/-- Modelled from the spec: `start` sets `qbuf/qlen` as the backing store of
the queue and marks the queue empty (the body of `Task::start` is missing). -/
def Queue.start {α : Type} (qbuf : List α) : Queue α :=
  { buf := qbuf, capacity := qbuf.length, head := 0, tail := 0, n_used := 0 }

/-- Modelled from the spec: `push(evt_ref)`, section 4.1 (the body of
`Task::post` is missing).  If `n_used < capacity` the reference is stored at
`buf[head]`, `head` advances modulo `capacity` and `n_used` increments;
otherwise the operation fails with `Overflow`. -/
def Queue.push {α : Type} (q : Queue α) (e : α) : Except QueueError (Queue α) :=
  if q.n_used < q.capacity then
    .ok { q with buf := q.buf.set q.head e,
                 head := (q.head + 1) % q.capacity,
                 n_used := q.n_used + 1 }
  else .error .Overflow

/-- Modelled from the spec: `pop()`, section 4.1 (the body of
`Task::activate` is missing).  If `n_used > 0` it returns `buf[tail]`, `tail`
advances modulo `capacity` and `n_used` decrements; else it returns none. -/
def Queue.pop {α : Type} (q : Queue α) : Option α × Queue α :=
  if 0 < q.n_used then
    (q.buf[q.tail]?, { q with tail := (q.tail + 1) % q.capacity,
                              n_used := q.n_used - 1 })
  else (none, q)

/-- A queue operation requested by a client. -/
inductive QOp (α : Type) where
  | push (e : α)
  | pop
deriving DecidableEq, Repr

/-- A sequence of queue operations, run from the given state.  The result
is an error as soon as a push overflows; otherwise it is the final queue and
the results of the pops, in order. -/
def Queue.run {α : Type} : Queue α → List (QOp α) → Except QueueError (Queue α × List (Option α))
  | q, [] => .ok (q, [])
  | q, .push e :: ops =>
    match q.push e with
    | .ok q' => Queue.run q' ops
    | .error err => .error err
  | q, .pop :: ops =>
    match Queue.run (q.pop).2 ops with
    | .ok (q', outs) => .ok (q', (q.pop).1 :: outs)
    | .error err => .error err

/-- The references pushed by a sequence of operations, in order. -/
def QOp.pushed {α : Type} : List (QOp α) → List α
  | [] => []
  | .push e :: ops => e :: QOp.pushed ops
  | .pop :: ops => QOp.pushed ops

/-- The references held by a queue, oldest first: the `n_used` slots from
`tail` on, modulo `capacity`. -/
def Queue.contents {α : Type} (q : Queue α) : List (Option α) :=
  (List.range q.n_used).map fun i => q.buf[(q.tail + i) % q.capacity]?

/-- The representation invariant of the ring buffer. -/
def Queue.Inv {α : Type} (q : Queue α) : Prop :=
  q.buf.length = q.capacity ∧ q.n_used ≤ q.capacity ∧
    (q.capacity = 0 ∨
      (q.tail < q.capacity ∧ q.head = (q.tail + q.n_used) % q.capacity))

/-- Modelled from the spec: the contract violations of section 7 that the
queue operations detect; each one is reported by calling
`on_assert(module, location)`, which does not return (the kernel sources
that raise them are missing). -/
inductive Violation where
  | QueueOverflow
  | PopFromEmptyQueue
deriving DecidableEq, Repr

/-- Modelled from the spec: the part of a task (AO) that `post` and
`activate` act on, its queue and the pending flag of its interrupt vector
(the bodies of `Task::post` and `Task::activate` are missing). -/
structure Task (α : Type) where
  queue : Queue α
  irqPending : Bool
deriving DecidableEq, Repr

/-- Modelled from the spec: `start` marks the queue empty; the interrupt of
the AO is not pending (the body of `Task::start` is missing). -/
def Task.start {α : Type} (qbuf : List α) : Task α :=
  { queue := Queue.start qbuf, irqPending := false }

/-- Modelled from the spec: `post(evt_ref)` enqueues the reference and then
pends the interrupt vector of the AO; queue overflow is a fatal contract
violation, reported to `on_assert` (the body of `Task::post` is missing). -/
def Task.post {α : Type} (t : Task α) (e : α) : Except Violation (Task α) :=
  match t.queue.push e with
  | .ok q => .ok { queue := q, irqPending := true }
  | .error .Overflow => .error .QueueOverflow

/-- Modelled from the spec: `activate()` pops exactly one reference
(asserting that the queue is not empty), hands it to the dispatch hook and
re-pends the vector iff `n_used > 0` (the body of `Task::activate` is
missing).  The result is the reference to dispatch and the new state. -/
def Task.activate {α : Type} (t : Task α) : Except Violation (Option α × Task α) :=
  if 0 < t.queue.n_used then
    let r := t.queue.pop
    .ok (r.1, { queue := r.2, irqPending := decide (0 < r.2.n_used) })
  else .error .PopFromEmptyQueue

/-- A step of a run of a task: a post from some context, or an activation. -/
inductive TaskOp (α : Type) where
  | post (e : α)
  | activate
deriving DecidableEq, Repr

/-- One step of a task. -/
def Task.step {α : Type} (t : Task α) : TaskOp α → Except Violation (Task α)
  | .post e => t.post e
  | .activate => (t.activate).map Prod.snd

/-- A run of a task, stopping at the first contract violation. -/
def Task.run {α : Type} : Task α → List (TaskOp α) → Except Violation (Task α)
  | t, [] => .ok t
  | t, op :: ops =>
    match t.step op with
    | .ok t' => Task.run t' ops
    | .error f => .error f

/-! ## Time events

`blinky3.cpp` and the C++ BSPs use `SST::TimeEvt` (`arm`, `tick`); the class
and its member functions are defined in kernel sources that are not among
the sources embedded here. -/

/-- Modelled from the spec: a time event of the data model, `base`
(an event with signal `sig`), `target_ao`, `ctr`, `interval`; the field
`addr` is the identity of the object, which the `next` links of the armed
list refer to (the class `SST::TimeEvt` is missing from the sources). -/
structure TimeEvt where
  addr : Nat
  sig : Signal
  target : AO
  ctr : Nat
  interval : Nat
deriving DecidableEq, Repr

/-- Modelled from the spec: `new(sig, target_ao)` constructs a disarmed
timer with the given signal and target (the constructor of `SST::TimeEvt` is
missing from the sources). -/
def TimeEvt.new (addr : Nat) (sig : Signal) (target : AO) : TimeEvt :=
  { addr := addr, sig := sig, target := target, ctr := 0, interval := 0 }

/-- The event that a firing time event posts to its target: the time event
itself, seen as an event. -/
def TimeEvt.evt (t : TimeEvt) : Evt := .timeEvt t.sig t.addr

/-- Modelled from the spec: `arm(ctr, interval)` on the singly linked list
of armed timers, given in link order: if the time event is already armed its
counters are updated in place (the entry with the address of `te` is the
object `te` itself), else it is linked at the list head (the body of
`TimeEvt::arm` is missing from the sources). -/
def TimeEvt.arm (armed : List TimeEvt) (te : TimeEvt) (ctr interval : Nat) : List TimeEvt :=
  if armed.any (fun t => decide (t.addr = te.addr)) then
    armed.map fun t => if t.addr = te.addr then { te with ctr := ctr, interval := interval } else t
  else { te with ctr := ctr, interval := interval } :: armed

/-- Modelled from the spec: `disarm()` unlinks the time event from the list
if it is linked and returns whether it was armed (the body of
`TimeEvt::disarm` is missing from the sources). -/
def TimeEvt.disarm (armed : List TimeEvt) (te : TimeEvt) : Bool × List TimeEvt :=
  (armed.any (fun t => decide (t.addr = te.addr)),
   armed.filter (fun t => decide (t.addr ≠ te.addr)))

/-- Modelled from the spec: what `tick()` does with one armed timer: it
decrements `ctr`; when `ctr` reaches 0 it posts the event to `target_ao` and,
if `interval != 0`, reloads `ctr = interval`, else unlinks the timer
(result `none`).  The body of `TimeEvt::tick` is missing from the sources. -/
def TimeEvt.tickOne (t : TimeEvt) : Option TimeEvt × List Action :=
  let ctr := t.ctr - 1
  if ctr = 0 then
    (if t.interval ≠ 0 then some { t with ctr := t.interval } else none,
     [.post t.target t.evt])
  else (some { t with ctr := ctr }, [])

/-- Modelled from the spec: `tick()` traverses the list of armed timers in
list order and advances each of them (the body of `TimeEvt::tick` is
missing from the sources).  The result is the new list and the posts made. -/
def TimeEvt.tick : List TimeEvt → List TimeEvt × List Action
  | [] => ([], [])
  | t :: rest =>
    let r := TimeEvt.tickOne t
    let rs := TimeEvt.tick rest
    (match r.1 with
     | some t' => t' :: rs.1
     | none => rs.1,
     r.2 ++ rs.2)

/-- The list of armed timers after `n` calls of `tick()`. -/
def TimeEvt.stateAfter : Nat → List TimeEvt → List TimeEvt
  | 0, l => l
  | n + 1, l => (TimeEvt.tick (TimeEvt.stateAfter n l)).1

/-- The posts made by the `n`-th call of `tick()`, counted from 1. -/
def TimeEvt.postsAt : Nat → List TimeEvt → List Action
  | 0, _ => []
  | n + 1, l => (TimeEvt.tick (TimeEvt.stateAfter n l)).2

/-- The ticks among the first `n` at which the time event `te` is posted to
its target. -/
def TimeEvt.firingTicks (l : List TimeEvt) (te : TimeEvt) (n : Nat) : List Nat :=
  (List.range' 1 n).filter fun i => decide (0 < (TimeEvt.postsAt i l).count (.post te.target te.evt))

/-! ## Assertions and the outcome of application code -/

/-- The way a piece of application code stops without returning to its
caller. -/
inductive Abort where
  /-- The assertion handler (`Q_onAssert`, `DBC_fault_handler`) was called
  with this module name and location; it does not return. -/
  | assertion (module : String) (location : Nat)
  /-- The code read through a null pointer, or read a field of a domain
  event that the event object does not have (undefined behaviour in C). -/
  | invalidAccess
deriving DecidableEq, Repr

/-- The outcome of a function of the application: the state it leaves, the
actions it performed, and how it stopped if it did not return. -/
structure Outcome (σ : Type) where
  state : σ
  trace : List Action
  abort : Option Abort
deriving DecidableEq, Repr

/-- The macro `Q_ERROR_ID(id_)` of `qassert.h`: a call of
`Q_onAssert(&Q_this_module_[0], id_)` unless `Q_NASSERT` is defined, in which
case it is `((void)0)`.  The result is the abort raised, if any. -/
def Q_ERROR_ID (Q_NASSERT : Bool) (Q_this_module_ : String) (id_ : Nat) : Option Abort :=
  if Q_NASSERT then none else some (.assertion Q_this_module_ id_)

/-- The macro `Q_ERROR()` of `qassert.h`: `Q_ERROR_ID(__LINE__)`. -/
def Q_ERROR (Q_NASSERT : Bool) (Q_this_module_ : String) (line : Nat) : Option Abort :=
  Q_ERROR_ID Q_NASSERT Q_this_module_ line

/-- Modelled from the spec: `DBC_ERROR(label)` of the C++ sources, a
contract violation that calls the assertion handler
`DBC_fault_handler(module, label)` (the header that defines the `DBC_` macros
is missing from the sources). -/
def DBC_ERROR (module : String) (label : Nat) : Option Abort :=
  some (.assertion module label)

/-- Modelled from the spec: `DBC_REQUIRE(label, expr)` of the C++ sources, a
precondition whose violation calls `DBC_fault_handler(module, label)` (the
header that defines the `DBC_` macros is missing from the sources). -/
def DBC_REQUIRE (module : String) (label : Nat) (expr : Bool) : Option Abort :=
  if expr then none else some (.assertion module label)

/-- The macro `SST_EVT_DOWNCAST(ButtonWorkEvt, e)->toggles` of the C sources,
`evt_downcast<ButtonWorkEvt>(e)->toggles` of `sst.hpp`: the field exists when
the event object is a `ButtonWorkEvt`. -/
def Evt.buttonToggles : Evt → Option Nat
  | .buttonWork _ toggles => some toggles
  | _ => none

/-- The access `evt_downcast<BlinkyWorkEvt>(e)->toggles`. -/
def Evt.blinkyToggles : Evt → Option Nat
  | .blinkyWork _ toggles _ => some toggles
  | _ => none

/-- The access `evt_downcast<BlinkyWorkEvt>(e)->ticks`. -/
def Evt.blinkyTicks : Evt → Option Nat
  | .blinkyWork _ _ ticks => some ticks
  | _ => none

/-- The actions of a loop `for (i = n; i > 0U; --i) \x7b ledOn(); ledOff(); \x7d`. -/
def toggleLoop (ledOn ledOff : Action) : Nat → List Action
  | 0 => []
  | n + 1 => ledOn :: ledOff :: toggleLoop ledOn ledOff n

/-! ## The active object Button2b (`button2b.c`) -/

/-- The line of `Q_ERROR()` in `button2b.c`, the value of `__LINE__` there. -/
def Button2b_Q_ERROR_line : Nat := 97

/-- The function `Button2b_dispatch` of `button2b.c` (lines 60-101).  The
object `me` has no variables of its own, so the state is `Unit`.  The
arguments `Q_NASSERT` and `Q_this_module_` are the build switch of `qassert.h`
and the string that `Q_DEFINE_THIS_FILE` defines from `__FILE__`. -/
def Button2b_dispatch (Q_NASSERT : Bool) (Q_this_module_ : String) (S : AppSignals)
    (e : Evt) : Outcome Unit :=
  if e.sig = S.BUTTON_PRESSED_SIG then
    let bw1evt : Evt := .blinkyWork S.BLINKY_WORK_SIG 20 4
    match e.buttonToggles with
    | some toggles =>
      { state := (), abort := none,
        trace := .post .AO_Blinky3 bw1evt :: toggleLoop .d3on .d3off toggles }
    | none => { state := (), abort := some .invalidAccess, trace := [.post .AO_Blinky3 bw1evt] }
  else if e.sig = S.BUTTON_RELEASED_SIG then
    let bw2evt : Evt := .blinkyWork S.BLINKY_WORK_SIG 10 3
    match e.buttonToggles with
    | some toggles =>
      { state := (), abort := none,
        trace := .post .AO_Blinky3 bw2evt :: toggleLoop .d3on .d3off toggles }
    | none => { state := (), abort := some .invalidAccess, trace := [.post .AO_Blinky3 bw2evt] }
  else
    { state := (), trace := [], abort := Q_ERROR Q_NASSERT Q_this_module_ Button2b_Q_ERROR_line }

/-! ## The active object Blinky3 (`blinky3.cpp`) -/

/-- The class `Blinky3`: its time event `m_te` and `m_toggles`.  The
counters of an armed time event are those of its entry in the list of armed
timers; `m_te` gives the identity, signal and target of the object. -/
structure Blinky3 where
  m_te : TimeEvt
  m_toggles : Nat
deriving DecidableEq, Repr

/-- The state that the member functions of `Blinky3` act on: the object and
the list of armed time events of the kernel. -/
structure Blinky3State where
  me : Blinky3
  armed : List TimeEvt
deriving DecidableEq, Repr

/-- The constructor `Blinky3::Blinky3()`: `m_te(TIMEOUT_SIG, this)`.  The
member `m_toggles` is not initialised by the constructor; the instance is a
static object, hence zero-initialised. -/
def Blinky3.ctor (S : AppSignals) (addr : Nat) : Blinky3 :=
  { m_te := TimeEvt.new addr S.TIMEOUT_SIG .AO_Blinky3, m_toggles := 0 }

/-- The string of `DBC_MODULE_NAME("blinky3")`. -/
def Blinky3.module : String := "blinky3"

/-- The expression checked by `DBC_REQUIRE(300, ...)` in `Blinky3::init`:
`(ie != nullptr) && (ie->sig == BLINKY_WORK_SIG)`.  The operator `&&`
evaluates its right operand only when the left one is true; reading `sig`
through a null pointer is an invalid access. -/
def Blinky3.init_check (S : AppSignals) (ie : Option Evt) : Except Abort Bool :=
  if ie.isSome then
    match ie with
    | some e => .ok (decide (e.sig = S.BLINKY_WORK_SIG))
    | none => .error .invalidAccess
  else .ok false

/-- The function `Blinky3::init` of `blinky3.cpp` (lines 59-68). -/
def Blinky3.init (S : AppSignals) (s : Blinky3State) (ie : Option Evt) : Outcome Blinky3State :=
  match Blinky3.init_check S ie with
  | .error a => { state := s, trace := [], abort := some a }
  | .ok b =>
    match DBC_REQUIRE Blinky3.module 300 b with
    | some a => { state := s, trace := [], abort := some a }
    | none =>
      match ie.bind Evt.blinkyTicks, ie.bind Evt.blinkyToggles with
      | some ticks, some toggles =>
        { state := { me := { s.me with m_toggles := toggles },
                     armed := TimeEvt.arm s.armed s.me.m_te ticks ticks },
          trace := [], abort := none }
      | _, _ => { state := s, trace := [], abort := some .invalidAccess }

/-- The function `Blinky3::dispatch` of `blinky3.cpp` (lines 70-93). -/
def Blinky3.dispatch (S : AppSignals) (s : Blinky3State) (e : Evt) : Outcome Blinky3State :=
  if e.sig = S.TIMEOUT_SIG then
    { state := s, trace := toggleLoop .d2on .d2off s.me.m_toggles, abort := none }
  else if e.sig = S.BLINKY_WORK_SIG then
    match e.blinkyTicks, e.blinkyToggles with
    | some ticks, some toggles =>
      { state := { me := { s.me with m_toggles := toggles },
                   armed := TimeEvt.arm s.armed s.me.m_te ticks ticks },
        trace := [.d2on, .d2off], abort := none }
    | _, _ => { state := s, trace := [.d2on], abort := some .invalidAccess }
  else
    { state := s, trace := [], abort := DBC_ERROR Blinky3.module 500 }

/-! ## The assertion handlers of the board-support packages

An assertion handler is embedded as a step machine over its control points,
so that a run which never ends can be observed for any number of steps. -/

/-- The control points of an assertion handler. -/
inductive HandlerPc where
  /-- In `assert_failed`, about to call `DBC_fault_handler`. -/
  | call
  /-- At the start of the handler body, about to execute `cpsid i`. -/
  | entry
  /-- At the head of the body of `for (;;)`, about to turn LED2 on. -/
  | ledOn
  /-- In the first delay loop, about to test `ctr`, which has this value. -/
  | delay1 (ctr : Nat)
  /-- After the first delay loop, about to turn LED2 off. -/
  | ledOff
  /-- In the second delay loop, about to test `ctr`, which has this value. -/
  | delay2 (ctr : Nat)
  /-- After the `#ifndef NDEBUG` block, about to call `NVIC_SystemReset()`. -/
  | reset
  /-- Inside `NVIC_SystemReset()`, which requests the reset of the MCU and
  does not return (CMSIS declares it `__NO_RETURN`). -/
  | inReset
  /-- The handler has returned to its caller. -/
  | returned
deriving DecidableEq, Repr

/-- One step of the body shared by `Q_onAssert` and `DBC_fault_handler`:
`cpsid i`; unless `NDEBUG` is defined, `for (;;)` around `d6on()`, a delay
loop of `delay` iterations, `d6off()` and a second delay loop; then
`NVIC_SystemReset()`.  A delay loop tests `ctr` (`ctr != 0U` in the C BSP,
`ctr > 0U` in the C++ BSPs, the same test on an unsigned counter) and
decrements it. -/
def faultHandlerStep (NDEBUG : Bool) (delay : Nat) : HandlerPc → HandlerPc × List Action
  | .call => (.entry, [])
  | .entry => (if NDEBUG then .reset else .ledOn, [.cpsid_i])
  | .ledOn => (.delay1 delay, [.d6on])
  | .delay1 ctr => (if ctr ≠ 0 then .delay1 (ctr - 1) else .ledOff, [])
  | .ledOff => (.delay2 delay, [.d6off])
  | .delay2 ctr => (if ctr ≠ 0 then .delay2 (ctr - 1) else .ledOn, [])
  | .reset => (.inReset, [.NVIC_SystemReset])
  | .inReset => (.inReset, [])
  | .returned => (.returned, [])

/-- The control point reached and the actions performed by `n` steps. -/
def runHandler (step : HandlerPc → HandlerPc × List Action) :
    Nat → HandlerPc → HandlerPc × List Action
  | 0, pc => (pc, [])
  | n + 1, pc =>
    let r := step pc
    let rs := runHandler step n r.1
    (rs.1, r.2 ++ rs.2)

/-- The first `n` steps of `Q_onAssert(module, loc)` of
`sst0_c/.../bsp_nucleo-h743zi.c` (lines 322-344); the delay loops start at
`1000000U`.  The arguments are cast to `void` and not used. -/
def Q_onAssert (NDEBUG : Bool) (_module : String) (_loc : Int) (n : Nat) :
    HandlerPc × List Action :=
  runHandler (faultHandlerStep NDEBUG 1000000) n .entry

/-- The first `n` steps of `DBC_fault_handler(module, label)` of
`sst0_cpp/.../bsp_nucleo-h743zi.cpp` (lines 111-133); the delay loops start
at `1000000U`. -/
def DBC_fault_handler_h743 (NDEBUG : Bool) (_module : String) (_label : Int) (n : Nat) :
    HandlerPc × List Action :=
  runHandler (faultHandlerStep NDEBUG 1000000) n .entry

/-- The first `n` steps of `assert_failed(module, label)` of
`sst0_cpp/.../bsp_nucleo-h743zi.cpp` (lines 136-138), which calls
`DBC_fault_handler(module, label)`. -/
def assert_failed_h743 (NDEBUG : Bool) (_module : String) (_label : Int) (n : Nat) :
    HandlerPc × List Action :=
  runHandler (faultHandlerStep NDEBUG 1000000) n .call

/-- The first `n` steps of `DBC_fault_handler(module, label)` of
`sst_cpp/.../bsp_nucleo-l053r8.cpp` (lines 111-133); the delay loops start
at `10000U`. -/
def DBC_fault_handler_l053 (NDEBUG : Bool) (_module : String) (_label : Int) (n : Nat) :
    HandlerPc × List Action :=
  runHandler (faultHandlerStep NDEBUG 10000) n .entry

/-- The first `n` steps of `assert_failed(module, label)` of
`sst_cpp/.../bsp_nucleo-l053r8.cpp` (lines 136-138). -/
def assert_failed_l053 (NDEBUG : Bool) (_module : String) (_label : Int) (n : Nat) :
    HandlerPc × List Action :=
  runHandler (faultHandlerStep NDEBUG 10000) n .call

/-- What the specification asks of a run of an assertion handler, given as
the control point and the actions after `n` steps, for every `n`: the first
action is the masking of interrupts; the handler never returns; in a debug
build it turns LED2 on and off again and again, for ever, and never reaches
the reset; in an `NDEBUG` build its actions are the masking of interrupts and
then, last, `NVIC_SystemReset()`. -/
def HandlerSpec (NDEBUG : Bool) (run : Nat → HandlerPc × List Action) : Prop :=
  (∃ n₀, ∀ n, n₀ ≤ n → (run n).2.head? = some .cpsid_i) ∧
  (∀ n, (run n).1 ≠ .returned) ∧
  (NDEBUG = false →
    (∀ n, ∃ m, n ≤ m ∧ (run (m + 1)).2 = (run m).2 ++ [.d6on]) ∧
    (∀ n, ∃ m, n ≤ m ∧ (run (m + 1)).2 = (run m).2 ++ [.d6off]) ∧
    (∀ n, Action.NVIC_SystemReset ∉ (run n).2 ∧ (run n).1 ≠ .inReset)) ∧
  (NDEBUG = true →
    ∃ n₀, ∀ n, n₀ ≤ n → (run n).2 = [.cpsid_i, .NVIC_SystemReset] ∧ (run n).1 = .inReset)

/-- The debounce rule in one expression, to compare the tick handlers with:
a bit of `depressed` is set when `previous` and `current` both have it, is
cleared when neither has it, and `previous` becomes `current`. -/
def debounced (b : ButtonsDebouncing) (current : Nat) : ButtonsDebouncing :=
  { depressed := (b.depressed ||| (b.previous &&& current)) &&& (b.previous ||| current),
    previous := current }

/-! ## The assertion macros of `qassert.h` -/

/-- A Boolean expression of C handed to an assertion macro.  Its evaluation
in a state yields its value and the state it leaves, so an expression with
side effects is a function that changes the state. -/
abbrev CExpr (σ : Type) := σ → Bool × σ

/-- An expression that only reads: it has the given value and leaves the
state as it is. -/
def CExpr.pure {σ : Type} (b : Bool) : CExpr σ := fun s => (b, s)

/-- What the expansion of an assertion macro does: the state it leaves, the
number of times it evaluated its expression, and the call of `Q_onAssert`
it made, if any. -/
structure MacroResult (σ : Type) where
  state : σ
  evals : Nat
  abort : Option Abort
deriving DecidableEq, Repr

/-- The macro `Q_ASSERT_ID(id_, expr_)` of `qassert.h` (lines 79-106):
`((expr_) ? ((void)0) : Q_onAssert(&Q_this_module_[0], (id_)))` unless
`Q_NASSERT` is defined, and `((void)0)` when it is. -/
def Q_ASSERT_ID {σ : Type} (Q_NASSERT : Bool) (Q_this_module_ : String) (id_ : Nat)
    (expr_ : CExpr σ) (s : σ) : MacroResult σ :=
  if Q_NASSERT then { state := s, evals := 0, abort := none }
  else
    let r := expr_ s
    { state := r.2, evals := 1,
      abort := if r.1 then none else some (.assertion Q_this_module_ id_) }

/-- The macro `Q_ALLEGE_ID(id_, expr_)` of `qassert.h` (lines 133-159):
`Q_ASSERT_ID((id_), (expr_))` unless `Q_NASSERT` is defined, and
`((void)(expr_))` when it is. -/
def Q_ALLEGE_ID {σ : Type} (Q_NASSERT : Bool) (Q_this_module_ : String) (id_ : Nat)
    (expr_ : CExpr σ) (s : σ) : MacroResult σ :=
  if Q_NASSERT then { state := (expr_ s).2, evals := 1, abort := none }
  else Q_ASSERT_ID Q_NASSERT Q_this_module_ id_ expr_ s

/-- The macro `Q_REQUIRE_ID(id_, expr_)` of `qassert.h` (line 171):
`Q_ASSERT_ID((id_), (expr_))`. -/
def Q_REQUIRE_ID {σ : Type} (Q_NASSERT : Bool) (Q_this_module_ : String) (id_ : Nat)
    (expr_ : CExpr σ) (s : σ) : MacroResult σ :=
  Q_ASSERT_ID Q_NASSERT Q_this_module_ id_ expr_ s

/-- The macro `Q_ENSURE_ID(id_, expr_)` of `qassert.h` (line 194):
`Q_ASSERT_ID((id_), (expr_))`. -/
def Q_ENSURE_ID {σ : Type} (Q_NASSERT : Bool) (Q_this_module_ : String) (id_ : Nat)
    (expr_ : CExpr σ) (s : σ) : MacroResult σ :=
  Q_ASSERT_ID Q_NASSERT Q_this_module_ id_ expr_ s

/-- The macro `Q_INVARIANT_ID(id_, expr_)` of `qassert.h` (line 217):
`Q_ASSERT_ID((id_), (expr_))`. -/
def Q_INVARIANT_ID {σ : Type} (Q_NASSERT : Bool) (Q_this_module_ : String) (id_ : Nat)
    (expr_ : CExpr σ) (s : σ) : MacroResult σ :=
  Q_ASSERT_ID Q_NASSERT Q_this_module_ id_ expr_ s

/-- The macro `Q_REQUIRE(expr_)` of `qassert.h` (line 182):
`Q_REQUIRE_ID(__LINE__, (expr_))`; the argument `line` is the value of
`__LINE__` at the place of use. -/
def Q_REQUIRE {σ : Type} (Q_NASSERT : Bool) (Q_this_module_ : String) (line : Nat)
    (expr_ : CExpr σ) (s : σ) : MacroResult σ :=
  Q_REQUIRE_ID Q_NASSERT Q_this_module_ line expr_ s

/-- The macro `Q_ENSURE(expr_)` of `qassert.h` (line 205):
`Q_ENSURE_ID(__LINE__, (expr_))`. -/
def Q_ENSURE {σ : Type} (Q_NASSERT : Bool) (Q_this_module_ : String) (line : Nat)
    (expr_ : CExpr σ) (s : σ) : MacroResult σ :=
  Q_ENSURE_ID Q_NASSERT Q_this_module_ line expr_ s

/-- The macro `Q_DIM(array_)` of `qassert.h` (line 357):
`(sizeof(array_) / sizeof((array_)[0U]))`.  The size of an array is the
number of its elements times the size `sizeofElem` of one element. -/
def Q_DIM {α : Type} (sizeofElem : Nat) (array_ : List α) : Nat :=
  (array_.length * sizeofElem) / sizeofElem

/-- Modelled from the spec: the macro `ARRAY_NELEM(array_)` of the C++ BSPs,
the number of elements of an array, computed as `Q_DIM` of `qassert.h`
computes it, the size of the array divided by the size of an element (the
header that defines `ARRAY_NELEM` is missing from the sources). -/
def ARRAY_NELEM {α : Type} (sizeofElem : Nat) (array_ : List α) : Nat :=
  (array_.length * sizeofElem) / sizeofElem

/-- Modelled from the spec: an assertion of the C++ sources in a build
configuration, `DBC_REQUIRE(label, expr)` or `DBC_ENSURE(label, expr)`.
Assertions can be compiled out for release builds (`disabled`), in which
case the expression is not evaluated; otherwise a false expression calls
`DBC_fault_handler(module, label)`.  The header that defines the `DBC_`
macros is missing from the sources. -/
def DBC_ASSERT {σ : Type} (disabled : Bool) (module : String) (label : Nat)
    (expr : CExpr σ) (s : σ) : MacroResult σ :=
  if disabled then { state := s, evals := 0, abort := none }
  else
    let r := expr s
    { state := r.2, evals := 1, abort := DBC_REQUIRE module label r.1 }

/-! ## The work-event tables and the FPU exercise of the BSPs -/

/-- The result of a function that returns a value unless it stops without
returning. -/
abbrev Result (α : Type) := Except Abort α

/-- The element `array[num]` whose address a function returns; an index
outside the array is an invalid access. -/
def tableEntry (array_ : List Evt) (num : Nat) : Result Evt :=
  match array_[num]? with
  | some e => .ok e
  | none => .error .invalidAccess

/-- The table `workBliny1` of `BSP_getWorkEvtBlinky1` in the C BSP (lines
251-262); the tables `workBlinky1` of the C++ BSPs have the same entries. -/
def workBlinky1 (S : AppSignals) : List Evt :=
  [.blinkyWork S.BLINKY_WORK_SIG 40 5, .blinkyWork S.BLINKY_WORK_SIG 30 7]

/-- The table `workBlinky3` of `BSP_getWorkEvtBlinky3` in the C BSP (lines
269-280); the tables of the C++ BSPs have the same entries. -/
def workBlinky3 (S : AppSignals) : List Evt :=
  [.blinkyWork S.BLINKY_WORK_SIG 20 5, .blinkyWork S.BLINKY_WORK_SIG 10 3]

/-- The function `BSP_getWorkEvtBlinky1` of `sst0_c/.../bsp_nucleo-h743zi.c`
(lines 249-265).  The argument `num` is the value of the `uint8_t` parameter,
`file` the string of `Q_DEFINE_THIS_FILE`, `sizeofElem` the value of
`sizeof(BlinkyWorkEvt)`; `Q_REQUIRE` is at line 263. -/
def BSP_getWorkEvtBlinky1_c (Q_NASSERT : Bool) (file : String) (sizeofElem : Nat)
    (S : AppSignals) (num : Nat) : Result Evt :=
  match (Q_REQUIRE Q_NASSERT file 263
      (CExpr.pure (decide (num < Q_DIM sizeofElem (workBlinky1 S)))) ()).abort with
  | some a => .error a
  | none => tableEntry (workBlinky1 S) num

/-- The function `BSP_getWorkEvtBlinky3` of `sst0_c/.../bsp_nucleo-h743zi.c`
(lines 267-283); `Q_REQUIRE` is at line 281. -/
def BSP_getWorkEvtBlinky3_c (Q_NASSERT : Bool) (file : String) (sizeofElem : Nat)
    (S : AppSignals) (num : Nat) : Result Evt :=
  match (Q_REQUIRE Q_NASSERT file 281
      (CExpr.pure (decide (num < Q_DIM sizeofElem (workBlinky3 S)))) ()).abort with
  | some a => .error a
  | none => tableEntry (workBlinky3 S) num

/-- The function `BSP::getWorkEvtBlinky1` of
`sst0_cpp/.../bsp_nucleo-h743zi.cpp` (lines 249-257), with
`DBC_REQUIRE(500, num < ARRAY_NELEM(workBlinky1))`. -/
def getWorkEvtBlinky1_h743 (disabled : Bool) (sizeofElem : Nat) (S : AppSignals)
    (num : Nat) : Result Evt :=
  match (DBC_ASSERT disabled "bsp_nucleo-h743zi" 500
      (CExpr.pure (decide (num < ARRAY_NELEM sizeofElem (workBlinky1 S)))) ()).abort with
  | some a => .error a
  | none => tableEntry (workBlinky1 S) num

/-- The function `BSP::getWorkEvtBlinky3` of
`sst0_cpp/.../bsp_nucleo-h743zi.cpp` (lines 259-267), with
`DBC_REQUIRE(600, num < ARRAY_NELEM(workBlinky3))`. -/
def getWorkEvtBlinky3_h743 (disabled : Bool) (sizeofElem : Nat) (S : AppSignals)
    (num : Nat) : Result Evt :=
  match (DBC_ASSERT disabled "bsp_nucleo-h743zi" 600
      (CExpr.pure (decide (num < ARRAY_NELEM sizeofElem (workBlinky3 S)))) ()).abort with
  | some a => .error a
  | none => tableEntry (workBlinky3 S) num

/-- The function `BSP::getWorkEvtBlinky1` of
`sst_cpp/.../bsp_nucleo-l053r8.cpp` (lines 251-259). -/
def getWorkEvtBlinky1_l053 (disabled : Bool) (sizeofElem : Nat) (S : AppSignals)
    (num : Nat) : Result Evt :=
  match (DBC_ASSERT disabled "bsp_nucleo-l053r8" 500
      (CExpr.pure (decide (num < ARRAY_NELEM sizeofElem (workBlinky1 S)))) ()).abort with
  | some a => .error a
  | none => tableEntry (workBlinky1 S) num

/-- The function `BSP::getWorkEvtBlinky3` of
`sst_cpp/.../bsp_nucleo-l053r8.cpp` (lines 261-269). -/
def getWorkEvtBlinky3_l053 (disabled : Bool) (sizeofElem : Nat) (S : AppSignals)
    (num : Nat) : Result Evt :=
  match (DBC_ASSERT disabled "bsp_nucleo-l053r8" 600
      (CExpr.pure (decide (num < ARRAY_NELEM sizeofElem (workBlinky3 S)))) ()).abort with
  | some a => .error a
  | none => tableEntry (workBlinky3 S) num

/-- The type `double` and the operations on it that `exerciseFPU` uses: the
functions `sin`, `cos` and `pow` of the C library, addition, comparison, and
the constants `2.0`, `1.0 - 1e-4` and `1.0 + 1e-4`.  Floating-point
arithmetic is a parameter of the embedding. -/
structure FPU (D : Type) where
  sin : D → D
  cos : D → D
  pow : D → D → D
  add : D → D → D
  lt : D → D → Bool
  two : D
  lower : D
  upper : D

/-- The function `exerciseFPU` of `sst0_c/.../bsp_nucleo-h743zi.c` (lines
141-145); `Q_ENSURE` is at line 144.  The result is the value of `tmp` and
the abort raised, if any. -/
def exerciseFPU_c {D : Type} (F : FPU D) (Q_NASSERT : Bool) (file : String) (x : D) :
    Outcome D :=
  let tmp := F.add (F.pow (F.sin x) F.two) (F.pow (F.cos x) F.two)
  { state := tmp, trace := [],
    abort := (Q_ENSURE Q_NASSERT file 144
      (CExpr.pure (F.lt F.lower tmp && F.lt tmp F.upper)) ()).abort }

/-- The function `exerciseFPU` of `sst0_cpp/.../bsp_nucleo-h743zi.cpp`
(lines 191-197), with `DBC_ENSURE(200, ...)`. -/
def exerciseFPU_cpp {D : Type} (F : FPU D) (disabled : Bool) (x : D) : Outcome D :=
  let tmp := F.add (F.pow (F.sin x) F.two) (F.pow (F.cos x) F.two)
  { state := tmp, trace := [],
    abort := (DBC_ASSERT disabled "bsp_nucleo-h743zi" 200
      (CExpr.pure (F.lt F.lower tmp && F.lt tmp F.upper)) ()).abort }

/-- The function `Blinky3::init` of `blinky3.cpp` (lines 59-68) in a build
configuration: with assertions compiled out (`disabled`) the expression of
`DBC_REQUIRE(300, ...)` is not evaluated and the body starts with the call
of `m_te.arm`; with assertions compiled in it is `Blinky3.init`. -/
def Blinky3.init_build (disabled : Bool) (S : AppSignals) (s : Blinky3State)
    (ie : Option Evt) : Outcome Blinky3State :=
  if disabled then
    match ie.bind Evt.blinkyTicks, ie.bind Evt.blinkyToggles with
    | some ticks, some toggles =>
      { state := { me := { s.me with m_toggles := toggles },
                   armed := TimeEvt.arm s.armed s.me.m_te ticks ticks },
        trace := [], abort := none }
    | _, _ => { state := s, trace := [], abort := some .invalidAccess }
  else Blinky3.init S s ie

/-! ## The binding of tasks to interrupts (`bsp_nucleo-l053r8.cpp`) -/

/-- An interrupt of the NUCLEO-L053R8: one of the regular interrupts that the
BSP repurposes, named by its CMSIS enumerator `X_IRQn`, whose handler is the
function `X_IRQHandler`; or a reserved interrupt given by its number `n`,
whose handler is the function `Reserved<n>_IRQHandler`. -/
inductive Irq where
  | PVD_IRQn
  | RTC_IRQn
  | TSC_IRQn
  | I2C2_IRQn
  | reserved (n : Nat)
deriving DecidableEq, Repr

/-- The calls of `setIRQ` in `BSP::init` of `bsp_nucleo-l053r8.cpp` (lines
192-205), in program order, for the configuration with `REGULAR_IRQS`
defined and for the one without. -/
def BSP_init_setIRQ (REGULAR_IRQS : Bool) : List (AO × Irq) :=
  if REGULAR_IRQS then
    [(.AO_Blinky3, .PVD_IRQn), (.AO_Button2b, .RTC_IRQn),
     (.AO_Button2a, .TSC_IRQn), (.AO_Blinky1, .I2C2_IRQn)]
  else
    [(.AO_Blinky3, .reserved 14), (.AO_Button2b, .reserved 16),
     (.AO_Button2a, .reserved 18), (.AO_Blinky1, .reserved 19)]

/-- The interrupt handlers defined in `bsp_nucleo-l053r8.cpp` (lines
142-169): for each handler, its interrupt and the active objects on which
its body calls `activate()`, in order. -/
def irqHandlers (REGULAR_IRQS : Bool) : List (Irq × List AO) :=
  if REGULAR_IRQS then
    [(.PVD_IRQn, [.AO_Blinky3]), (.RTC_IRQn, [.AO_Button2b]),
     (.TSC_IRQn, [.AO_Button2a]), (.I2C2_IRQn, [.AO_Blinky1])]
  else
    [(.reserved 14, [.AO_Blinky3]), (.reserved 16, [.AO_Button2b]),
     (.reserved 18, [.AO_Button2a]), (.reserved 19, [.AO_Blinky1])]

/-- The interrupt that `BSP::init` assigns to an active object. -/
def irqOf (REGULAR_IRQS : Bool) (ao : AO) : Option Irq :=
  ((BSP_init_setIRQ REGULAR_IRQS).find? fun p => decide (p.1 = ao)).map Prod.snd

/-- The active objects that the handler of an interrupt activates. -/
def activatedBy (REGULAR_IRQS : Bool) (irq : Irq) : Option (List AO) :=
  ((irqHandlers REGULAR_IRQS).find? fun p => decide (p.1 = irq)).map Prod.snd

/-- The four active objects of the application. -/
def allAOs : List AO := [.AO_Blinky3, .AO_Button2b, .AO_Button2a, .AO_Blinky1]

/-! ## The idle hook of SST0 -/

/-- The function `SST_onIdleCond` of `sst0_c/.../bsp_nucleo-h743zi.c` (lines
297-319): the actions it performs, in order. -/
def SST_onIdleCond (NDEBUG : Bool) : List Action :=
  (if NDEBUG then [.WFI] else [.d6on, .d6off]) ++ [.SST_PORT_INT_ENABLE]

/-- The function `SST::onIdleCond` of `sst0_cpp/.../bsp_nucleo-h743zi.cpp`
(lines 285-298): the actions it performs, in order. -/
def SST_onIdleCond_cpp (NDEBUG : Bool) : List Action :=
  [.d6on] ++ (if NDEBUG then [.d6off, .WFI, .d6on] else []) ++ [.d6off, .SST_PORT_INT_ENABLE]

/-- Modelled from the spec: the global interrupt enable and disable
primitives of the port.  The instruction `cpsid i` disables interrupts and
`SST_PORT_INT_ENABLE()` enables them (the port header that defines the macro
is missing from the sources).  The effect of any other action is the
parameter `other`: the LED functions of the C BSP contain a critical section,
whose macros are missing as well. -/
def Action.intEnabled (other : Action → Bool → Bool) : Action → Bool → Bool
  | .cpsid_i, _ => false
  | .SST_PORT_INT_ENABLE, _ => true
  | a, en => other a en

/-- The global interrupt enable after a sequence of actions. -/
def intEnabledAfter (other : Action → Bool → Bool) (tr : List Action) (en : Bool) : Bool :=
  tr.foldl (fun e a => a.intEnabled other e) en

/-! ## Domain events and their downcast -/

/-- The struct `ButtonWorkEvt` of the application: the base event `super`,
given by its signal, and `toggles`. -/
structure ButtonWorkEvt where
  super : Signal
  toggles : Nat
deriving DecidableEq, Repr

/-- The struct `BlinkyWorkEvt` of the application: the base event `super`,
given by its signal, `toggles` and `ticks`. -/
structure BlinkyWorkEvt where
  super : Signal
  toggles : Nat
  ticks : Nat
deriving DecidableEq, Repr

/-- The reference `&d.super` to the base event of a `ButtonWorkEvt`, as it
is handed to `post`: a reference to the first field of the object `d`. -/
def ButtonWorkEvt.ref (d : ButtonWorkEvt) : Evt := .buttonWork d.super d.toggles

/-- The reference `&d.super` to the base event of a `BlinkyWorkEvt`. -/
def BlinkyWorkEvt.ref (d : BlinkyWorkEvt) : Evt := .blinkyWork d.super d.toggles d.ticks

/-- The function `evt_downcast<ButtonWorkEvt>` of `sst.hpp` (lines 49-52)
and the macro `SST_EVT_DOWNCAST(ButtonWorkEvt, e)` of the C sources: the
reference reinterpreted as a reference to a `ButtonWorkEvt`, which is an
object only when the event referred to is one. -/
def evt_downcast_ButtonWorkEvt : Evt → Option ButtonWorkEvt
  | .buttonWork sig toggles => some { super := sig, toggles := toggles }
  | _ => none

/-- The function `evt_downcast<BlinkyWorkEvt>` of `sst.hpp` (lines 49-52). -/
def evt_downcast_BlinkyWorkEvt : Evt → Option BlinkyWorkEvt
  | .blinkyWork sig toggles ticks => some { super := sig, toggles := toggles, ticks := ticks }
  | _ => none

/-- An event is of the domain type that its receiver downcasts it to: a
`BlinkyWorkEvt` when it carries `BLINKY_WORK_SIG`, a `ButtonWorkEvt` when it
carries `BUTTON_PRESSED_SIG` or `BUTTON_RELEASED_SIG`. -/
def Evt.WellTyped (S : AppSignals) (e : Evt) : Prop :=
  (e.sig = S.BLINKY_WORK_SIG →
    ∃ d : BlinkyWorkEvt, evt_downcast_BlinkyWorkEvt e = some d ∧
      e.blinkyToggles = some d.toggles ∧ e.blinkyTicks = some d.ticks) ∧
  (e.sig = S.BUTTON_PRESSED_SIG ∨ e.sig = S.BUTTON_RELEASED_SIG →
    ∃ d : ButtonWorkEvt, evt_downcast_ButtonWorkEvt e = some d ∧
      e.buttonToggles = some d.toggles)

/-- The signal enumerators are pairwise different within each of the two
application headers: the C one, with `TICK_SIG`, and the C++ one, with
`TIMEOUT_SIG`. -/
def AppSignals.EnumDistinct (S : AppSignals) : Prop :=
  [S.TICK_SIG, S.BUTTON_PRESSED_SIG, S.BUTTON_RELEASED_SIG, S.BLINKY_WORK_SIG,
   S.FORWARD_PRESSED_SIG, S.FORWARD_RELEASED_SIG].Nodup ∧
  [S.TIMEOUT_SIG, S.BUTTON_PRESSED_SIG, S.BUTTON_RELEASED_SIG, S.BLINKY_WORK_SIG,
   S.FORWARD_PRESSED_SIG, S.FORWARD_RELEASED_SIG].Nodup

instance (S : AppSignals) : Decidable S.EnumDistinct := by
  unfold AppSignals.EnumDistinct; infer_instance

/-- The events posted to an active object within a trace, in order. -/
def postsTo (ao : AO) (tr : List Action) : List Evt :=
  tr.filterMap fun a =>
    match a with
    | .post ao' e => if ao' = ao then some e else none
    | _ => none

/-- The value of bit `B1_PIN` of a port word. -/
def b1 (x : Nat) : Bool := x.testBit B1_PIN

/-- Whether an abort is a call of the assertion handler. -/
def Abort.isAssertion : Abort → Bool
  | .assertion _ _ => true
  | .invalidAccess => false

/-- Whether a function stopped because an assertion failed. -/
def Outcome.assertionFailed {σ : Type} (o : Outcome σ) : Bool :=
  match o.abort with
  | some a => a.isAssertion
  | none => false

/-- Whether a function stopped because an assertion failed. -/
def assertionFailed {α : Type} : Result α → Bool
  | .error a => a.isAssertion
  | .ok _ => false

/-- The difference of the queue indices, `(head - tail) mod capacity`. -/
def Queue.indexDiff {α : Type} (q : Queue α) : Int :=
  ((q.head : Int) - (q.tail : Int)) % (q.capacity : Int)

/-! ## Button events over a run of ticks -/

/-- The events posted to `AO_Button2a` by successive invocations of a tick
handler, one per sample, in order. -/
def buttonPosts (handler : ButtonsDebouncing → Nat → ButtonsDebouncing × List Action)
    (b : ButtonsDebouncing) (reads : List Nat) : List Evt :=
  (runTicks handler b reads).2.foldr (fun tr acc => postsTo .AO_Button2a tr ++ acc) []

/-- The pair of events that a tick handler posts when B1 becomes depressed:
`fPressEvt`, then `pressEvt`. -/
def pressPair (S : AppSignals) : List Evt :=
  [.buttonWork S.FORWARD_PRESSED_SIG 60, .buttonWork S.BUTTON_PRESSED_SIG 60]

/-- The pair of events that a tick handler posts when B1 is released:
`fReleaseEvt`, then `releaseEvt`. -/
def releasePair (S : AppSignals) : List Evt :=
  [.buttonWork S.FORWARD_RELEASED_SIG 80, .buttonWork S.BUTTON_RELEASED_SIG 80]

/-- A sequence of `n` pairs that strictly alternate between a press pair and
a release pair; the first pair is a release pair if the button is
`depressed` at the start and a press pair if it is not. -/
def altPairs (S : AppSignals) : Bool → Nat → List Evt
  | _, 0 => []
  | depressed, n + 1 =>
    (if depressed then releasePair S else pressPair S) ++ altPairs S (!depressed) n

/-- Two sequences of port samples agree on bit `B1_PIN` at every tick. -/
def AgreeOnB1 (reads₁ reads₂ : List Nat) : Prop :=
  List.Forall₂ (fun x y => x.testBit B1_PIN = y.testBit B1_PIN) reads₁ reads₂

/-! ## The work events of the application -/

/-- The static event `bw1evt` of `Button2b_dispatch` (`button2b.c`, lines
64-68). -/
def Button2b_bw1evt (S : AppSignals) : Evt := .blinkyWork S.BLINKY_WORK_SIG 20 4

/-- The static event `bw2evt` of `Button2b_dispatch` (`button2b.c`, lines
81-85). -/
def Button2b_bw2evt (S : AppSignals) : Evt := .blinkyWork S.BLINKY_WORK_SIG 10 3

/-- Every `BlinkyWorkEvt` that the sources define: the entries of the tables
of the BSPs for Blinky1 and Blinky3 and the two static events of Button2b. -/
def blinkyWorkEvts (S : AppSignals) : List Evt :=
  workBlinky1 S ++ workBlinky3 S ++ [Button2b_bw1evt S, Button2b_bw2evt S]

/-- A tick handler, as far as the button is concerned: the new debounce
state is given by the debounce rule for some sample, and the posts to
`AO_Button2a` are a press pair, a release pair or nothing, according to bit
B1 of the old and of the new debounced word. -/
def IsDebouncer (S : AppSignals)
    (handler : ButtonsDebouncing → Nat → ButtonsDebouncing × List Action)
    (sample : Nat → Nat) : Prop :=
  ∀ b idr, (handler b idr).1 = debounced b (sample idr) ∧
    postsTo .AO_Button2a (handler b idr).2
      = if b1 b.depressed = b1 (debounced b (sample idr)).depressed then []
        else if b1 (debounced b (sample idr)).depressed then
          [Evt.buttonWork S.FORWARD_PRESSED_SIG 60, Evt.buttonWork S.BUTTON_PRESSED_SIG 60]
        else [Evt.buttonWork S.FORWARD_RELEASED_SIG 80, Evt.buttonWork S.BUTTON_RELEASED_SIG 80]

/-- The button events of a run from the initial debounce state strictly
alternate between a press pair and a release pair, the first pair is a press
pair, and bit B1 of the final `depressed` word is 1 exactly when the number
of pairs is odd, which is exactly when the last event posted is the
`BUTTON_PRESSED` event. -/
def Alternates (S : AppSignals)
    (handler : ButtonsDebouncing → Nat → ButtonsDebouncing × List Action)
    (reads : List Nat) : Prop :=
  ∃ n, buttonPosts handler ButtonsDebouncing.init reads = altPairs S false n ∧
    (b1 (runTicks handler ButtonsDebouncing.init reads).1.depressed = true ↔ n % 2 = 1) ∧
    (b1 (runTicks handler ButtonsDebouncing.init reads).1.depressed = true ↔
      (buttonPosts handler ButtonsDebouncing.init reads).getLast?
        = some (.buttonWork S.BUTTON_PRESSED_SIG 60))

end SST

/-! # Theorems -/

namespace SST

/-! ## Scenario S5 (claim C1) -/

/-- Claim C1, as stated, fails: in scenario S5 neither the C nor the C++
handler of the NUCLEO-H743ZI posts one press at the third tick and one
release at the fifth, whatever values the signal enumerators have. -/
theorem S5_third_fifth_fails :
    ¬ ∃ S : AppSignals, S5_expected S SysTick_Handler_c ∨ S5_expected S SysTick_Handler_cpp := by
  rintro ⟨S, h | h⟩ <;>
  · have h3 := congrArg (fun p => p.1.get? 2) h
    simp [S5_expected, S5_posts, S5_reads, runTicks, SysTick_Handler_c, SysTick_Handler_cpp,
      ButtonsDebouncing.init, PIN, B1_PIN, u32, countPosts] at h3

/-- Claim C1, amended: in scenario S5 both NUCLEO-H743ZI handlers post
exactly one BUTTON_PRESSED event to the button AO, at the fourth tick (the
second consecutive PIN sample), and no BUTTON_RELEASED event during the five
ticks; the release is posted at the sixth tick when the pin reads 0 again. -/
theorem S5_press_at_fourth_tick (S : AppSignals) (hS : S.ButtonSigsDistinct) :
    S5_posts S SysTick_Handler_c = ([0, 0, 0, 1, 0], [0, 0, 0, 0, 0]) ∧
    S5_posts S SysTick_Handler_cpp = ([0, 0, 0, 1, 0], [0, 0, 0, 0, 0]) ∧
    S5_posts_six S SysTick_Handler_c = ([0, 0, 0, 1, 0, 0], [0, 0, 0, 0, 0, 1]) ∧
    S5_posts_six S SysTick_Handler_cpp = ([0, 0, 0, 1, 0, 0], [0, 0, 0, 0, 0, 1]) := by
  simp only [AppSignals.ButtonSigsDistinct, List.nodup_cons, List.mem_cons, List.mem_singleton,
    not_or, List.not_mem_nil, not_false_eq_true, List.nodup_nil, and_true] at hS
  obtain ⟨⟨h1, h2, h3⟩, ⟨h4, h5⟩, h6⟩ := hS
  have e1 : (8192 &&& 8192 : Nat) = 8192 := by decide
  have e2 : (8192 ||| 8192 : Nat) = 8192 := by decide
  have e3 : (8192 ^^^ 8192 : Nat) = 0 := by decide
  simp [S5_posts, S5_posts_six, S5_reads, runTicks, SysTick_Handler_c, SysTick_Handler_cpp,
    ButtonsDebouncing.init, PIN, B1_PIN, u32, countPosts, Evt.sig, e1, e2, e3,
    h1, h2, h3, h4, h5, h6, Ne.symm h1, Ne.symm h2, Ne.symm h3, Ne.symm h4, Ne.symm h5,
    Ne.symm h6]

/-- Claim C1, amended, at a concrete assignment of the signal enumerators. -/
theorem S5_press_at_fourth_tick_witness :
    sigEnum.ButtonSigsDistinct ∧
    S5_posts sigEnum SysTick_Handler_c = ([0, 0, 0, 1, 0], [0, 0, 0, 0, 0]) ∧
    S5_posts sigEnum SysTick_Handler_cpp = ([0, 0, 0, 1, 0], [0, 0, 0, 0, 0]) ∧
    S5_posts_six sigEnum SysTick_Handler_c = ([0, 0, 0, 1, 0, 0], [0, 0, 0, 0, 0, 1]) ∧
    S5_posts_six sigEnum SysTick_Handler_cpp = ([0, 0, 0, 1, 0, 0], [0, 0, 0, 0, 0, 1]) :=
  ⟨by decide, S5_press_at_fourth_tick sigEnum (by decide)⟩

/-! ## The ring buffer (claims C2, C3) -/

section QueueLemmas
variable {α : Type}

theorem Queue.inv_start (qbuf : List α) : (Queue.start qbuf).Inv := by
  unfold Queue.Inv Queue.start
  by_cases h : qbuf.length = 0
  · simp [h]
  · refine ⟨rfl, Nat.zero_le _, Or.inr ⟨Nat.pos_of_ne_zero h, ?_⟩⟩
    simp

theorem Queue.push_ok_iff (q : Queue α) (e : α) :
    (∃ q', q.push e = .ok q') ↔ q.n_used < q.capacity := by
  unfold Queue.push
  split <;> simp_all

theorem Queue.push_inv {q q' : Queue α} {e : α} (hq : q.Inv) (h : q.push e = .ok q') :
    q'.Inv := by
  unfold Queue.push at h
  split at h
  next hlt =>
    cases h
    obtain ⟨hlen, _, hc⟩ := hq
    rcases hc with hc | ⟨htail, hhead⟩
    · omega
    · refine ⟨by simpa using hlen, hlt, Or.inr ⟨htail, ?_⟩⟩
      show (q.head + 1) % q.capacity = (q.tail + (q.n_used + 1)) % q.capacity
      rw [hhead, Nat.mod_add_mod, Nat.add_assoc]
  next => cases h

theorem Queue.pop_inv {q : Queue α} (hq : q.Inv) : (q.pop).2.Inv := by
  unfold Queue.pop
  split
  next hpos =>
    obtain ⟨hlen, hle, hc⟩ := hq
    rcases hc with hc | ⟨htail, hhead⟩
    · omega
    · refine ⟨hlen, ?_, Or.inr ⟨Nat.mod_lt _ (by omega), ?_⟩⟩
      · show q.n_used - 1 ≤ q.capacity
        omega
      · show q.head = ((q.tail + 1) % q.capacity + (q.n_used - 1)) % q.capacity
        rw [hhead, Nat.mod_add_mod]
        congr 1
        omega
  next => exact hq

/-- Two slots at offsets `i < j < capacity` from `tail` are different slots. -/
theorem Queue.slot_ne {c t i j : Nat} (hij : i < j) (hj : j < c) :
    (t + i) % c ≠ (t + j) % c := by
  intro h
  have hd : c ∣ (t + j) - (t + i) := (Nat.modEq_iff_dvd' (by omega)).1 h
  have : c ≤ (t + j) - (t + i) := Nat.le_of_dvd (by omega) hd
  omega

theorem Queue.contents_push {q q' : Queue α} {e : α} (hq : q.Inv) (h : q.push e = .ok q') :
    q'.contents = q.contents ++ [some e] := by
  unfold Queue.push at h
  split at h
  next hlt =>
    cases h
    obtain ⟨hlen, _, hc⟩ := hq
    rcases hc with hc | ⟨htail, hhead⟩
    · omega
    · simp only [Queue.contents, List.range_succ, List.map_append, List.map_cons, List.map_nil]
      congr 1
      · apply List.map_congr_left
        intro i hi
        rw [List.mem_range] at hi
        rw [List.getElem?_set_ne]
        rw [hhead]
        exact fun hh => Queue.slot_ne hi hlt hh.symm
      · rw [hhead, List.getElem?_set_self']
        have : (q.tail + q.n_used) % q.capacity < q.buf.length := by
          rw [hlen]; exact Nat.mod_lt _ (by omega)
        simp [this]
  next => cases h

theorem Queue.contents_pop {q : Queue α} (hq : q.Inv) (hpos : 0 < q.n_used) :
    q.contents = (q.pop).1 :: (q.pop).2.contents ∧ (q.pop).1 = q.buf[q.tail]? ∧
      ∃ e, (q.pop).1 = some e := by
  obtain ⟨hlen, hle, hc⟩ := hq
  rcases hc with hc | ⟨htail, hhead⟩
  · omega
  · have hp : q.pop =
        (q.buf[q.tail]?, { q with tail := (q.tail + 1) % q.capacity, n_used := q.n_used - 1 }) := by
      unfold Queue.pop; simp [hpos]
    rw [hp]
    refine ⟨?_, rfl, ?_⟩
    · obtain ⟨n, hn⟩ : ∃ n, q.n_used = n + 1 := ⟨q.n_used - 1, by omega⟩
      simp only [Queue.contents, hn, List.range_succ_eq_map, List.map_cons, List.map_map,
        Nat.add_zero, Nat.add_sub_cancel]
      rw [Nat.mod_eq_of_lt htail]
      congr 1
      apply List.map_congr_left
      intro i _
      simp only [Function.comp]
      rw [Nat.mod_add_mod]
      congr 2
      omega
    · have : q.tail < q.buf.length := by omega
      exact ⟨q.buf[q.tail], by simp [this]⟩

theorem Queue.contents_of_empty {q : Queue α} (h : q.n_used = 0) : q.contents = [] := by
  simp [Queue.contents, h]

theorem Queue.length_contents (q : Queue α) : q.contents.length = q.n_used := by
  simp [Queue.contents]

/-- The simulation of the ring buffer by a list: running operations from a
state that satisfies the invariant keeps the invariant, and the references
held before plus the references pushed are the references popped plus the
references held afterwards, in this order. -/
theorem Queue.run_sim : ∀ (ops : List (QOp α)) (q q' : Queue α) (outs : List (Option α)),
    q.Inv → Queue.run q ops = .ok (q', outs) →
    q'.Inv ∧ q.contents ++ (QOp.pushed ops).map some
      = (outs.filterMap id).map some ++ q'.contents
  | [], q, q', outs, hq, h => by
    simp only [Queue.run, Except.ok.injEq, Prod.mk.injEq] at h
    obtain ⟨rfl, rfl⟩ := h
    exact ⟨hq, by simp [QOp.pushed]⟩
  | .push e :: ops, q, q', outs, hq, h => by
    simp only [Queue.run] at h
    cases hp : q.push e with
    | error err => rw [hp] at h; cases h
    | ok q1 =>
      rw [hp] at h
      obtain ⟨hinv, hc⟩ := Queue.run_sim ops q1 q' outs (Queue.push_inv hq hp) h
      refine ⟨hinv, ?_⟩
      rw [← hc, Queue.contents_push hq hp]
      simp [QOp.pushed]
  | .pop :: ops, q, q', outs, hq, h => by
    simp only [Queue.run] at h
    cases hr : Queue.run (q.pop).2 ops with
    | error err => rw [hr] at h; cases h
    | ok r =>
      obtain ⟨q2, outs2⟩ := r
      rw [hr] at h
      simp only [Except.ok.injEq, Prod.mk.injEq] at h
      obtain ⟨rfl, rfl⟩ := h
      obtain ⟨hinv, hc⟩ := Queue.run_sim ops (q.pop).2 q2 outs2 (Queue.pop_inv hq) hr
      refine ⟨hinv, ?_⟩
      by_cases hpos : 0 < q.n_used
      · obtain ⟨h1, _, e, he⟩ := Queue.contents_pop hq hpos
        rw [h1, he]
        simp only [QOp.pushed, List.cons_append]
        rw [hc]
        simp
      · have hz : q.pop = (none, q) := by unfold Queue.pop; simp [hpos]
        rw [hz] at hc ⊢
        simpa [QOp.pushed] using hc

end QueueLemmas

section TaskLemmas
variable {α : Type}

theorem Task.step_inv {t t' : Task α} {op : TaskOp α} (ht : t.queue.Inv)
    (h : t.step op = .ok t') : t'.queue.Inv ∧ t'.queue.capacity = t.queue.capacity := by
  cases op with
  | post e =>
    simp only [Task.step, Task.post] at h
    cases hp : t.queue.push e with
    | error err => rw [hp] at h; cases err; cases h
    | ok q =>
      rw [hp] at h
      cases h
      refine ⟨Queue.push_inv ht hp, ?_⟩
      unfold Queue.push at hp
      split at hp
      · cases hp; rfl
      · cases hp
  | activate =>
    simp only [Task.step, Task.activate] at h
    split at h
    · cases h
      refine ⟨Queue.pop_inv ht, ?_⟩
      show (t.queue.pop).2.capacity = t.queue.capacity
      unfold Queue.pop
      split <;> rfl
    · cases h

theorem Task.run_inv : ∀ (ops : List (TaskOp α)) (t t' : Task α), t.queue.Inv →
    Task.run t ops = .ok t' → t'.queue.Inv ∧ t'.queue.capacity = t.queue.capacity
  | [], t, t', ht, h => by
    simp only [Task.run, Except.ok.injEq] at h
    subst h
    exact ⟨ht, rfl⟩
  | op :: ops, t, t', ht, h => by
    simp only [Task.run] at h
    cases hs : t.step op with
    | error f => rw [hs] at h; cases h
    | ok t1 =>
      rw [hs] at h
      obtain ⟨h1, h2⟩ := Task.step_inv ht hs
      obtain ⟨h3, h4⟩ := Task.run_inv ops t1 t' h1 h
      exact ⟨h3, h4.trans h2⟩

end TaskLemmas

/-- Claim C2 (queue FIFO): run any sequence of pushes and pops on a queue
that starts empty, with no push overflowing.  Then the references popped are,
in order, a prefix of the references pushed, and the rest is what the queue
still holds; in the state reached, a push with `n_used < capacity` stores the
reference at `buf[head]`, advances `head` modulo `capacity` and increments
`n_used`; a pop with `n_used > 0` returns `buf[tail]`, advances `tail` modulo
`capacity` and decrements `n_used`; a pop on the empty queue returns none. -/
theorem queue_fifo {α : Type} (qbuf : List α) (ops : List (QOp α)) (q : Queue α)
    (outs : List (Option α)) (h : Queue.run (Queue.start qbuf) ops = .ok (q, outs)) :
    (∃ rest, QOp.pushed ops = outs.filterMap id ++ rest ∧ q.contents = rest.map some) ∧
    (∀ e, q.n_used < q.capacity → ∃ q', q.push e = .ok q' ∧ q'.buf[q.head]? = some e ∧
        q'.head = (q.head + 1) % q.capacity ∧ q'.n_used = q.n_used + 1 ∧
        q'.tail = q.tail ∧ q'.contents = q.contents ++ [some e]) ∧
    (0 < q.n_used → ∃ e, q.buf[q.tail]? = some e ∧ (q.pop).1 = some e ∧
        (q.pop).2.tail = (q.tail + 1) % q.capacity ∧ (q.pop).2.n_used = q.n_used - 1 ∧
        (q.pop).2.head = q.head ∧ q.contents = some e :: (q.pop).2.contents) ∧
    (q.n_used = 0 → q.pop = (none, q)) := by
  obtain ⟨hinv, hc⟩ := Queue.run_sim ops _ q outs (Queue.inv_start qbuf) h
  refine ⟨?_, ?_, ?_, ?_⟩
  · rw [Queue.contents_of_empty (by rfl), List.nil_append] at hc
    obtain ⟨l₁, l₂, h1, h2, h3⟩ := List.map_eq_append_iff.1 hc
    have : l₁ = outs.filterMap id := List.map_injective_iff.2 (Option.some_injective α) h2
    exact ⟨l₂, by rw [h1, this], h3.symm⟩
  · intro e hlt
    have hp : q.push e = .ok
        { q with buf := q.buf.set q.head e, head := (q.head + 1) % q.capacity, n_used := q.n_used + 1 } := by
      unfold Queue.push; simp [hlt]
    refine ⟨_, hp, ?_, rfl, rfl, rfl, Queue.contents_push hinv hp⟩
    obtain ⟨hlen, _, hcap⟩ := hinv
    rcases hcap with hcap | ⟨_, hhead⟩
    · omega
    · have : q.head < q.buf.length := by
        rw [hhead, hlen]; exact Nat.mod_lt _ (by omega)
      simp [this]
  · intro hpos
    obtain ⟨h1, h2, e, he⟩ := Queue.contents_pop hinv hpos
    refine ⟨e, by rw [← h2, he], he, ?_, ?_, ?_, by rw [h1, he]⟩ <;>
      · unfold Queue.pop; simp [hpos]
  · intro hz
    unfold Queue.pop; simp [hz]

/-- Claim C2 at a concrete run: a queue of capacity 2, three pushes and four
pops with wrap-around of both indices. -/
theorem queue_fifo_witness :
    Queue.run (Queue.start [0, 0])
        [.push 1, .push 2, .pop, .push 3, .pop, .pop, .pop]
      = .ok ({ buf := [3, 2], capacity := 2, head := 1, tail := 1, n_used := 0 },
             [some 1, some 2, some 3, none]) ∧
    ∃ rest, QOp.pushed [.push 1, .push 2, .pop, .push 3, .pop, .pop, .pop]
        = [some 1, some 2, some 3, none].filterMap id ++ rest ∧
      Queue.contents { buf := [3, 2], capacity := 2, head := 1, tail := 1, n_used := 0 }
        = rest.map some :=
  ⟨by rfl, (queue_fifo [0, 0] [.push 1, .push 2, .pop, .push 3, .pop, .pop, .pop]
    { buf := [3, 2], capacity := 2, head := 1, tail := 1, n_used := 0 }
    [some 1, some 2, some 3, none] (by rfl)).1⟩

/-- Claim C3 (queue capacity): in every state that a task reaches from
`start` by posts and activations, `n_used` is at most the capacity, and a
post attempted when `n_used` equals the capacity reports the overflow to the
assertion handler and yields no new queue state.  Scenario S2: with a queue
of size 2 and no activation, two posts succeed and the third one triggers
the assertion. -/
theorem queue_capacity {α : Type} (qbuf : List α) (ops : List (TaskOp α)) (t : Task α)
    (h : Task.run (Task.start qbuf) ops = .ok t) :
    (0 ≤ t.queue.n_used ∧ t.queue.n_used ≤ t.queue.capacity) ∧
    t.queue.capacity = qbuf.length ∧
    (t.queue.n_used = t.queue.capacity → ∀ e, t.post e = .error .QueueOverflow) ∧
    (∀ b₁ b₂ e₁ e₂ e₃ : α,
      (∃ t₂, Task.run (Task.start [b₁, b₂]) [.post e₁, .post e₂] = .ok t₂ ∧
        t₂.queue.n_used = 2) ∧
      Task.run (Task.start [b₁, b₂]) [.post e₁, .post e₂, .post e₃]
        = .error .QueueOverflow) := by
  obtain ⟨hinv, hcap⟩ := Task.run_inv ops _ t (Queue.inv_start qbuf) h
  refine ⟨⟨Nat.zero_le _, hinv.2.1⟩, hcap, ?_, ?_⟩
  · intro hfull e
    simp [Task.post, Queue.push, hfull]
  · intro b₁ b₂ e₁ e₂ e₃
    exact ⟨⟨_, rfl, rfl⟩, rfl⟩

/-- Claim C3 at a concrete run: a queue of size 2 that is filled, drained by
one activation and filled again. -/
theorem queue_capacity_witness :
    Task.run (Task.start [0, 0]) [.post 7, .post 8, .activate, .post 9]
      = .ok { queue := { buf := [9, 8], capacity := 2, head := 1, tail := 1, n_used := 2 },
              irqPending := true } ∧
    ∀ e : Nat, Task.post
        { queue := { buf := [9, 8], capacity := 2, head := 1, tail := 1, n_used := 2 }, irqPending := true }
        e = .error .QueueOverflow :=
  ⟨by rfl, (queue_capacity [0, 0] [.post 7, .post 8, .activate, .post 9]
    { queue := { buf := [9, 8], capacity := 2, head := 1, tail := 1, n_used := 2 },
      irqPending := true } (by rfl)).2.2.1 rfl⟩

/-! ## Time events (claims C5, C6) -/

theorem TimeEvt.tick_append (l₁ l₂ : List TimeEvt) :
    TimeEvt.tick (l₁ ++ l₂)
      = ((TimeEvt.tick l₁).1 ++ (TimeEvt.tick l₂).1, (TimeEvt.tick l₁).2 ++ (TimeEvt.tick l₂).2) := by
  induction l₁ with
  | nil => simp [TimeEvt.tick]
  | cons t l ih =>
    show TimeEvt.tick (t :: (l ++ l₂)) = _
    rw [TimeEvt.tick, ih, TimeEvt.tick]
    cases (TimeEvt.tickOne t).1 <;> simp

theorem TimeEvt.stateAfter_append (n : Nat) (l₁ l₂ : List TimeEvt) :
    TimeEvt.stateAfter n (l₁ ++ l₂) = TimeEvt.stateAfter n l₁ ++ TimeEvt.stateAfter n l₂ := by
  induction n with
  | zero => rfl
  | succ n ih => simp only [TimeEvt.stateAfter, ih, TimeEvt.tick_append]

theorem TimeEvt.postsAt_append (n : Nat) (l₁ l₂ : List TimeEvt) :
    TimeEvt.postsAt n (l₁ ++ l₂) = TimeEvt.postsAt n l₁ ++ TimeEvt.postsAt n l₂ := by
  cases n with
  | zero => rfl
  | succ n => simp only [TimeEvt.postsAt, TimeEvt.stateAfter_append, TimeEvt.tick_append]

/-- A call of `tick()` on timers that all differ from address `a` leaves only
such timers and posts no time event of address `a`. -/
theorem TimeEvt.tick_other (a : Nat) (tg : AO) (s : Signal) :
    ∀ l : List TimeEvt, (∀ t ∈ l, t.addr ≠ a) →
      (∀ t ∈ (TimeEvt.tick l).1, t.addr ≠ a) ∧
      (TimeEvt.tick l).2.count (.post tg (.timeEvt s a)) = 0
  | [], _ => by simp [TimeEvt.tick]
  | t :: l, h => by
    have ht : t.addr ≠ a := h t (List.mem_cons_self _ _)
    obtain ⟨ih1, ih2⟩ := TimeEvt.tick_other a tg s l (fun u hu => h u (List.mem_cons_of_mem _ hu))
    simp only [TimeEvt.tick, TimeEvt.tickOne]
    refine ⟨?_, ?_⟩
    · split_ifs <;> simp_all
    · rw [List.count_append, ih2]
      split_ifs <;> simp [TimeEvt.evt, List.count_cons, ht]

theorem TimeEvt.stateAfter_other (a : Nat) (l : List TimeEvt) (h : ∀ t ∈ l, t.addr ≠ a) :
    ∀ n, ∀ t ∈ TimeEvt.stateAfter n l, t.addr ≠ a
  | 0 => h
  | n + 1 => (TimeEvt.tick_other a .AO_Blinky1 0 _ (TimeEvt.stateAfter_other a l h n)).1

theorem TimeEvt.postsAt_other (a : Nat) (tg : AO) (s : Signal) (l : List TimeEvt)
    (h : ∀ t ∈ l, t.addr ≠ a) (n : Nat) :
    (TimeEvt.postsAt n l).count (.post tg (.timeEvt s a)) = 0 := by
  cases n with
  | zero => rfl
  | succ n => exact (TimeEvt.tick_other a tg s _ (TimeEvt.stateAfter_other a l h n)).2

/-- The successor of a number modulo `p`, by cases. -/
theorem succ_mod_cases (m p : Nat) (hp : 0 < p) :
    (m + 1) % p = if m % p + 1 = p then 0 else m % p + 1 := by
  have hlt : m % p < p := Nat.mod_lt _ hp
  rw [Nat.add_mod_eq_ite]
  by_cases h1 : p = 1
  · subst h1; simp [Nat.mod_one]
  · have : 1 % p = 1 := Nat.mod_eq_of_lt (by omega)
    rw [this]
    split_ifs <;> omega

/-- The counter of a periodic timer armed with `(k, p)` after `n` ticks. -/
theorem TimeEvt.stateAfter_periodic (t : TimeEvt) (k p : Nat) (hk : 0 < k) (hp : 0 < p) :
    ∀ n, TimeEvt.stateAfter n [{ t with ctr := k, interval := p }]
      = [{ t with ctr := if n < k then k - n else p - (n - k) % p, interval := p }]
  | 0 => by simp [TimeEvt.stateAfter, hk]
  | n + 1 => by
    rw [TimeEvt.stateAfter, TimeEvt.stateAfter_periodic t k p hk hp n]
    have hlt : (n - k) % p < p := Nat.mod_lt _ hp
    simp only [TimeEvt.tick, TimeEvt.tickOne]
    by_cases h1 : n + 1 < k
    · have : n < k := by omega
      simp only [this, h1, if_true]
      rw [if_neg (by omega)]
      simp only [List.cons.injEq, and_true, TimeEvt.mk.injEq, true_and]
      omega
    · by_cases h2 : n < k
      · have hn : n + 1 = k := by omega
        simp only [h2, h1, if_true, if_false]
        rw [if_pos (by omega), if_pos (by omega)]
        simp [← hn]
      · have hs : n + 1 - k = (n - k) + 1 := by omega
        simp only [h2, h1, if_false, hs]
        rw [succ_mod_cases _ _ hp]
        by_cases h3 : (n - k) % p + 1 = p
        · rw [if_pos h3, if_pos (by omega), if_pos (by omega)]
          simp
        · rw [if_neg h3, if_neg (by omega)]
          simp only [List.cons.injEq, and_true, TimeEvt.mk.injEq, true_and]
          omega

theorem TimeEvt.tick_single_posts (t : TimeEvt) :
    (TimeEvt.tick [t]).2 = if t.ctr - 1 = 0 then [.post t.target t.evt] else [] := by
  simp only [TimeEvt.tick, TimeEvt.tickOne, List.append_nil]
  split_ifs <;> rfl

/-- The posts of a periodic timer armed with `(k, p)`: one at tick `k` and
one every `p` ticks after it. -/
theorem TimeEvt.postsAt_periodic (t : TimeEvt) (k p : Nat) (hk : 0 < k) (hp : 0 < p) (n : Nat) :
    TimeEvt.postsAt n [{ t with ctr := k, interval := p }]
      = if k ≤ n ∧ (n - k) % p = 0 then [.post t.target t.evt] else [] := by
  cases n with
  | zero =>
    rw [if_neg (by omega)]
    rfl
  | succ n =>
    rw [TimeEvt.postsAt, TimeEvt.stateAfter_periodic t k p hk hp n, TimeEvt.tick_single_posts]
    have hlt : (n - k) % p < p := Nat.mod_lt _ hp
    simp only [TimeEvt.evt]
    by_cases h2 : n < k
    · have hz : (n + 1 - k) % p = 0 ∨ n + 1 < k := by
        by_cases h1 : n + 1 = k
        · left; simp [h1]
        · right; omega
      simp only [h2, if_true]
      split_ifs <;> first | rfl | (exfalso; omega)
    · have hs : n + 1 - k = (n - k) + 1 := by omega
      simp only [h2, if_false, hs]
      rw [succ_mod_cases _ _ hp]
      generalize (n - k) % p = r at hlt ⊢
      split_ifs <;> first | rfl | (exfalso; omega) | (exfalso; tauto)

/-- The life of a one-shot timer armed with `(k, 0)`. -/
theorem TimeEvt.stateAfter_oneShot (t : TimeEvt) (k : Nat) (hk : 0 < k) :
    ∀ n, TimeEvt.stateAfter n [{ t with ctr := k, interval := 0 }]
      = if n < k then [{ t with ctr := k - n, interval := 0 }] else []
  | 0 => by simp [TimeEvt.stateAfter, hk]
  | n + 1 => by
    rw [TimeEvt.stateAfter, TimeEvt.stateAfter_oneShot t k hk n]
    by_cases h2 : n < k
    · simp only [h2, if_true, TimeEvt.tick, TimeEvt.tickOne]
      by_cases h1 : n + 1 < k
      · rw [if_neg (by omega), if_pos h1]
        simp only [List.cons.injEq, and_true, TimeEvt.mk.injEq, true_and]
        omega
      · rw [if_pos (by omega), if_neg h1]
        simp
    · rw [if_neg h2, if_neg (by omega)]
      rfl

theorem TimeEvt.postsAt_oneShot (t : TimeEvt) (k : Nat) (hk : 0 < k) (n : Nat) :
    TimeEvt.postsAt n [{ t with ctr := k, interval := 0 }]
      = if n = k then [.post t.target t.evt] else [] := by
  cases n with
  | zero =>
    rw [if_neg (by omega)]
    rfl
  | succ n =>
    rw [TimeEvt.postsAt, TimeEvt.stateAfter_oneShot t k hk n]
    by_cases h2 : n < k
    · rw [if_pos h2, TimeEvt.tick_single_posts]
      simp only [TimeEvt.evt]
      split_ifs <;> first | rfl | (exfalso; omega)
    · rw [if_neg h2, if_neg (by omega)]
      rfl

theorem TimeEvt.arm_map_split (te te' : TimeEvt) :
    ∀ armed : List TimeEvt, (armed.map (fun t => t.addr)).Nodup →
      (∃ t ∈ armed, t.addr = te.addr) →
      ∃ pre suf, (armed.map fun t => if t.addr = te.addr then te' else t) = pre ++ [te'] ++ suf ∧
        (∀ t ∈ pre, t.addr ≠ te.addr) ∧ (∀ t ∈ suf, t.addr ≠ te.addr)
  | [], _, h => by simp at h
  | u :: l, hnd, h => by
    rw [List.map_cons, List.nodup_cons] at hnd
    by_cases hu : u.addr = te.addr
    · have hl : ∀ t ∈ l, t.addr ≠ te.addr := by
        intro t ht hEq
        exact hnd.1 (List.mem_map.2 ⟨t, ht, by rw [hEq, hu]⟩)
      refine ⟨[], l, ?_, by simp, hl⟩
      simp only [List.map_cons, hu, if_true, List.nil_append, List.singleton_append,
        List.cons.injEq, true_and]
      conv_rhs => rw [← List.map_id l]
      apply List.map_congr_left
      intro t ht
      simp [hl t ht]
    · have h' : ∃ t ∈ l, t.addr = te.addr := by
        obtain ⟨t, ht, hEq⟩ := h
        rcases List.mem_cons.1 ht with rfl | ht
        · exact absurd hEq hu
        · exact ⟨t, ht, hEq⟩
      obtain ⟨pre, suf, h1, h2, h3⟩ := TimeEvt.arm_map_split te te' l hnd.2 h'
      refine ⟨u :: pre, suf, ?_, ?_, h3⟩
      · simp only [List.map_cons, hu, if_false, h1, List.cons_append]
      · intro t ht
        rcases List.mem_cons.1 ht with rfl | ht
        · exact hu
        · exact h2 t ht

/-- Arming a time event yields a list in which it occurs once, with the new
counters, among timers of other addresses. -/
theorem TimeEvt.arm_split (te : TimeEvt) (k p : Nat) :
    ∀ armed : List TimeEvt, (armed.map (fun t => t.addr)).Nodup →
      ∃ pre suf, TimeEvt.arm armed te k p = pre ++ [{ te with ctr := k, interval := p }] ++ suf ∧
        (∀ t ∈ pre, t.addr ≠ te.addr) ∧ (∀ t ∈ suf, t.addr ≠ te.addr) := by
  intro armed hnd
  unfold TimeEvt.arm
  by_cases hany : armed.any (fun t => decide (t.addr = te.addr)) = true
  · rw [if_pos hany]
    obtain ⟨t, ht, hEq⟩ := List.any_eq_true.1 hany
    exact TimeEvt.arm_map_split te _ armed hnd ⟨t, ht, by simpa using hEq⟩
  · rw [if_neg hany]
    refine ⟨[], armed, by simp, by simp, ?_⟩
    intro t ht hEq
    exact hany (List.any_eq_true.2 ⟨t, ht, by simpa using hEq⟩)

/-- Among timers of other addresses, the posts of a time event are those it
makes when it is alone in the list. -/
theorem TimeEvt.count_split (t : TimeEvt) (tg : AO) (s : Signal) (pre suf : List TimeEvt)
    (hpre : ∀ u ∈ pre, u.addr ≠ t.addr) (hsuf : ∀ u ∈ suf, u.addr ≠ t.addr) (n : Nat) :
    (TimeEvt.postsAt n (pre ++ [t] ++ suf)).count (.post tg (.timeEvt s t.addr))
      = (TimeEvt.postsAt n [t]).count (.post tg (.timeEvt s t.addr)) := by
  rw [TimeEvt.postsAt_append, TimeEvt.postsAt_append, List.count_append, List.count_append,
    TimeEvt.postsAt_other _ _ _ pre hpre, TimeEvt.postsAt_other _ _ _ suf hsuf]
  omega

/-- Claim C5 (time-event periodicity): a time event armed with
`(ctr = k, interval = p)`, `k > 0` and `p > 0`, among any other armed timers
and not disarmed, is posted to its target by the `n`-th call of `tick()`
exactly when `n = k + j * p` for some `j`, once each time; for `k = 2` and
`p = 5` the posts over 17 ticks happen at ticks 2, 7, 12 and 17; and
`Blinky3` arms its timer with `ctr = interval = ticks`, in `init` and in
`dispatch`. -/
theorem timeEvt_periodic (armed : List TimeEvt) (te : TimeEvt) (k p : Nat) (hk : 0 < k)
    (hp : 0 < p) (hnd : (armed.map (fun t => t.addr)).Nodup) :
    (∀ n, (TimeEvt.postsAt n (TimeEvt.arm armed te k p)).count (.post te.target te.evt)
        = if k ≤ n ∧ (n - k) % p = 0 then 1 else 0) ∧
    (k = 2 → p = 5 → TimeEvt.firingTicks (TimeEvt.arm armed te k p) te 17 = [2, 7, 12, 17]) ∧
    (∀ (S : AppSignals) (s : Blinky3State) (toggles ticks : Nat),
      (Blinky3.init S s (some (.blinkyWork S.BLINKY_WORK_SIG toggles ticks))).state.armed
          = TimeEvt.arm s.armed s.me.m_te ticks ticks ∧
      (S.BLINKY_WORK_SIG ≠ S.TIMEOUT_SIG →
        (Blinky3.dispatch S s (.blinkyWork S.BLINKY_WORK_SIG toggles ticks)).state.armed
          = TimeEvt.arm s.armed s.me.m_te ticks ticks)) := by
  have hcount : ∀ n, (TimeEvt.postsAt n (TimeEvt.arm armed te k p)).count (.post te.target te.evt)
      = if k ≤ n ∧ (n - k) % p = 0 then 1 else 0 := by
    intro n
    obtain ⟨pre, suf, h1, h2, h3⟩ := TimeEvt.arm_split te k p armed hnd
    rw [h1]
    have := TimeEvt.count_split { te with ctr := k, interval := p } te.target te.sig pre suf h2 h3 n
    simp only [TimeEvt.evt] at this ⊢
    rw [this, TimeEvt.postsAt_periodic te k p hk hp n]
    split_ifs <;> simp [TimeEvt.evt]
  refine ⟨hcount, ?_, ?_⟩
  · intro h2 h5
    subst h2 h5
    simp only [TimeEvt.firingTicks, hcount]
    decide
  · intro S s toggles ticks
    constructor
    · simp [Blinky3.init, Blinky3.init_check, DBC_REQUIRE, Evt.sig, Evt.blinkyTicks,
        Evt.blinkyToggles]
    · intro hne
      simp [Blinky3.dispatch, Evt.sig, Evt.blinkyTicks, Evt.blinkyToggles, hne]

/-- Claim C5 at a concrete input: the timer `(ctr = 2, interval = 5)` of
scenario S4, armed while another timer is armed. -/
theorem timeEvt_periodic_witness :
    TimeEvt.firingTicks
      (TimeEvt.arm [{ addr := 1, sig := 1, target := .AO_Blinky1, ctr := 4, interval := 4 }]
        (TimeEvt.new 3 0 .AO_Blinky3) 2 5)
      (TimeEvt.new 3 0 .AO_Blinky3) 17 = [2, 7, 12, 17] :=
  (timeEvt_periodic [{ addr := 1, sig := 1, target := .AO_Blinky1, ctr := 4, interval := 4 }]
    (TimeEvt.new 3 0 .AO_Blinky3) 2 5 (by decide) (by decide) (by decide)).2.1 rfl rfl

/-- Claim C6 (one-shot time event, scenario S3): a time event armed with
`(ctr = 3, interval = 0)`, among any other armed timers, is posted to its
target exactly once, by the third call of `tick()`; it is linked in the list
of armed timers before that call and unlinked from it after, and no later
call posts it (in particular none of the next 10). -/
theorem timeEvt_oneShot (armed : List TimeEvt) (te : TimeEvt)
    (hnd : (armed.map (fun t => t.addr)).Nodup) :
    (∀ n, (TimeEvt.postsAt n (TimeEvt.arm armed te 3 0)).count (.post te.target te.evt)
        = if n = 3 then 1 else 0) ∧
    (∀ n, n < 3 → ∃ t ∈ TimeEvt.stateAfter n (TimeEvt.arm armed te 3 0), t.addr = te.addr) ∧
    (∀ n, 3 ≤ n → ∀ t ∈ TimeEvt.stateAfter n (TimeEvt.arm armed te 3 0), t.addr ≠ te.addr) ∧
    TimeEvt.firingTicks (TimeEvt.arm armed te 3 0) te 13 = [3] := by
  obtain ⟨pre, suf, h1, h2, h3⟩ := TimeEvt.arm_split te 3 0 armed hnd
  have hcount : ∀ n, (TimeEvt.postsAt n (TimeEvt.arm armed te 3 0)).count
      (.post te.target te.evt) = if n = 3 then 1 else 0 := by
    intro n
    rw [h1]
    have := TimeEvt.count_split { te with ctr := 3, interval := 0 } te.target te.sig pre suf h2 h3 n
    simp only [TimeEvt.evt] at this ⊢
    rw [this, TimeEvt.postsAt_oneShot te 3 (by decide) n]
    split_ifs <;> simp [TimeEvt.evt]
  have hstate : ∀ n, TimeEvt.stateAfter n (TimeEvt.arm armed te 3 0)
      = TimeEvt.stateAfter n pre
        ++ (if n < 3 then [{ te with ctr := 3 - n, interval := 0 }] else [])
        ++ TimeEvt.stateAfter n suf := by
    intro n
    rw [h1, TimeEvt.stateAfter_append, TimeEvt.stateAfter_append,
      TimeEvt.stateAfter_oneShot te 3 (by decide) n]
  refine ⟨hcount, ?_, ?_, ?_⟩
  · intro n hn
    rw [hstate n, if_pos hn]
    exact ⟨{ te with ctr := 3 - n, interval := 0 }, by simp, rfl⟩
  · intro n hn t ht
    rw [hstate n, if_neg (by omega), List.append_nil, List.mem_append] at ht
    rcases ht with ht | ht
    · exact TimeEvt.stateAfter_other te.addr pre h2 n t ht
    · exact TimeEvt.stateAfter_other te.addr suf h3 n t ht
  · simp only [TimeEvt.firingTicks, hcount]
    decide

/-- Claim C6 at a concrete input: the one-shot timer of scenario S3, armed
while a periodic timer is armed. -/
theorem timeEvt_oneShot_witness :
    TimeEvt.firingTicks
      (TimeEvt.arm [{ addr := 1, sig := 1, target := .AO_Blinky1, ctr := 4, interval := 4 }]
        (TimeEvt.new 3 0 .AO_Blinky3) 3 0)
      (TimeEvt.new 3 0 .AO_Blinky3) 13 = [3] :=
  (timeEvt_oneShot [{ addr := 1, sig := 1, target := .AO_Blinky1, ctr := 4, interval := 4 }]
    (TimeEvt.new 3 0 .AO_Blinky3) (by decide)).2.2.2

/-! ## The tick ISR (claim C7) -/

/-- Claim C7, as stated, fails for the SST0/C board-support package: its
`SysTick_Handler` makes no call of the time-event tick operation. -/
theorem SysTick_c_no_timeEvt_tick :
    countAction .timeEvtTick (SysTick_Handler_c sigEnum ButtonsDebouncing.init 0).2 = 0 := by
  decide

/-- Claim C7, amended: every invocation of `SysTick_Handler` of the two C++
board-support packages calls `TimeEvt::tick()` exactly once; the handler of
the SST0/C package calls no time-event operation and posts the immutable
`TICK_SIG` event once to `AO_Blinky1` and once to `AO_Blinky3` instead; and
every invocation of each of the three handlers reads the button port once
and applies the debounce rule to the sample. -/
theorem SysTick_tick_and_debounce (S : AppSignals) (b : ButtonsDebouncing) (idr : Nat) :
    (countAction .timeEvtTick (SysTick_Handler_cpp S b idr).2 = 1 ∧
     countAction .timeEvtTick (SysTick_Handler_l053 S b idr).2 = 1) ∧
    (countAction .timeEvtTick (SysTick_Handler_c S b idr).2 = 0 ∧
     countAction (.post .AO_Blinky1 (.base S.TICK_SIG)) (SysTick_Handler_c S b idr).2 = 1 ∧
     countAction (.post .AO_Blinky3 (.base S.TICK_SIG)) (SysTick_Handler_c S b idr).2 = 1) ∧
    (countAction .readGPIOC (SysTick_Handler_c S b idr).2 = 1 ∧
     countAction .readGPIOC (SysTick_Handler_cpp S b idr).2 = 1 ∧
     countAction .readGPIOC (SysTick_Handler_l053 S b idr).2 = 1) ∧
    ((SysTick_Handler_c S b idr).1 = debounced b (u32 idr) ∧
     (SysTick_Handler_cpp S b idr).1 = debounced b (u32 idr) ∧
     (SysTick_Handler_l053 S b idr).1 = debounced b (u32Not idr)) := by
  refine ⟨⟨?_, ?_⟩, ⟨?_, ?_, ?_⟩, ⟨?_, ?_, ?_⟩, ⟨rfl, rfl, rfl⟩⟩ <;>
  · simp only [SysTick_Handler_c, SysTick_Handler_cpp, SysTick_Handler_l053, countAction]
    split_ifs <;> simp [List.count_cons]

/-! ## Unexpected signals and the initial event (claims C8, C9) -/

/-- Claim C8 (unexpected signal): with assertions enabled, an event whose
signal is neither `BUTTON_PRESSED_SIG` nor `BUTTON_RELEASED_SIG` makes
`Button2b_dispatch` call the assertion handler without any post or LED
action; an event whose signal is neither `TIMEOUT_SIG` nor
`BLINKY_WORK_SIG` makes `Blinky3::dispatch` call the fault handler with label
500 and leaves `m_toggles` and the time events as they were; and for the
handled signals no dispatch function calls the assertion handler. -/
theorem dispatch_unexpected_signal (S : AppSignals) (file : String) (s : Blinky3State)
    (e : Evt) :
    (e.sig ≠ S.BUTTON_PRESSED_SIG → e.sig ≠ S.BUTTON_RELEASED_SIG →
      Button2b_dispatch false file S e
        = { state := (), trace := [],
            abort := some (.assertion file Button2b_Q_ERROR_line) }) ∧
    (e.sig ≠ S.TIMEOUT_SIG → e.sig ≠ S.BLINKY_WORK_SIG →
      Blinky3.dispatch S s e
        = { state := s, trace := [], abort := some (.assertion "blinky3" 500) }) ∧
    (e.sig = S.BUTTON_PRESSED_SIG ∨ e.sig = S.BUTTON_RELEASED_SIG →
      ∀ m l, (Button2b_dispatch false file S e).abort ≠ some (.assertion m l)) ∧
    (e.sig = S.TIMEOUT_SIG ∨ e.sig = S.BLINKY_WORK_SIG →
      ∀ m l, (Blinky3.dispatch S s e).abort ≠ some (.assertion m l)) := by
  refine ⟨?_, ?_, ?_, ?_⟩
  · intro h1 h2
    simp [Button2b_dispatch, h1, h2, Q_ERROR, Q_ERROR_ID]
  · intro h1 h2
    simp [Blinky3.dispatch, h1, h2, DBC_ERROR, Blinky3.module]
  · intro h m l
    unfold Button2b_dispatch
    rcases h with h | h
    · rw [if_pos h]
      cases e.buttonToggles <;> simp
    · split_ifs <;> cases e.buttonToggles <;> simp
  · intro h m l
    unfold Blinky3.dispatch
    rcases h with h | h
    · rw [if_pos h]
      simp
    · split_ifs
      · simp
      · split <;> simp

/-- Claim C8 at concrete events: a `TICK`-like base event with signal 9 is
unexpected for both active objects, and a press event is handled. -/
theorem dispatch_unexpected_signal_witness :
    Button2b_dispatch false "button2b.c" sigEnum (.base 9)
      = { state := (), trace := [], abort := some (.assertion "button2b.c" 97) } ∧
    (∀ m l, (Button2b_dispatch false "button2b.c" sigEnum (.buttonWork 4 60)).abort
      ≠ some (.assertion m l)) :=
  ⟨(dispatch_unexpected_signal sigEnum "button2b.c"
      { me := Blinky3.ctor sigEnum 3, armed := [] } (.base 9)).1 (by decide) (by decide),
   (dispatch_unexpected_signal sigEnum "button2b.c"
      { me := Blinky3.ctor sigEnum 3, armed := [] } (.buttonWork 4 60)).2.2.1
      (Or.inl (by decide))⟩

/-- Claim C9 (initial event of Blinky3): `Blinky3::init` raises the
precondition assertion with label 300 if and only if the initial event is
null or its signal is not `BLINKY_WORK_SIG`; the evaluation of the checked
expression never reads through a null pointer, and when the assertion is
raised nothing has been armed or stored. -/
theorem Blinky3_init_precondition (S : AppSignals) (s : Blinky3State) (ie : Option Evt) :
    ((Blinky3.init S s ie).abort = some (.assertion "blinky3" 300) ↔
      (ie = none ∨ ∃ e, ie = some e ∧ e.sig ≠ S.BLINKY_WORK_SIG)) ∧
    (∃ b, Blinky3.init_check S ie = .ok b) ∧
    (Blinky3.init S s none = { state := s, trace := [], abort := some (.assertion "blinky3" 300) }) ∧
    ((Blinky3.init S s ie).abort = some (.assertion "blinky3" 300) →
      (Blinky3.init S s ie).state = s) := by
  cases ie with
  | none =>
    simp [Blinky3.init, Blinky3.init_check, DBC_REQUIRE, Blinky3.module]
  | some e =>
    by_cases h : e.sig = S.BLINKY_WORK_SIG
    · cases e <;>
        simp_all [Blinky3.init, Blinky3.init_check, DBC_REQUIRE, Blinky3.module, Evt.sig,
          Evt.blinkyTicks, Evt.blinkyToggles]
    · simp [Blinky3.init, Blinky3.init_check, DBC_REQUIRE, Blinky3.module, h]

/-! ## The assertion handlers (claim C10) -/

section Handler
variable (step : HandlerPc → HandlerPc × List Action)

theorem runHandler_add (a b : Nat) (pc : HandlerPc) :
    runHandler step (a + b) pc
      = ((runHandler step b (runHandler step a pc).1).1,
         (runHandler step a pc).2 ++ (runHandler step b (runHandler step a pc).1).2) := by
  induction a generalizing pc with
  | zero => simp [runHandler]
  | succ a ih =>
    rw [Nat.add_right_comm, runHandler, ih]
    simp [runHandler, List.append_assoc]

theorem runHandler_one (pc : HandlerPc) : runHandler step 1 pc = step pc := by
  simp [runHandler]

end Handler

theorem faultHandler_delay1 (D : Nat) : ∀ c,
    runHandler (faultHandlerStep false D) (c + 1) (.delay1 c) = (.ledOff, [])
  | 0 => by simp [runHandler, faultHandlerStep]
  | c + 1 => by
    rw [runHandler]
    simp only [faultHandlerStep, ne_eq, Nat.add_one_ne_zero, not_false_eq_true, if_true,
      Nat.add_sub_cancel, List.nil_append]
    rw [faultHandler_delay1 D c]

theorem faultHandler_delay2 (D : Nat) : ∀ c,
    runHandler (faultHandlerStep false D) (c + 1) (.delay2 c) = (.ledOn, [])
  | 0 => by simp [runHandler, faultHandlerStep]
  | c + 1 => by
    rw [runHandler]
    simp only [faultHandlerStep, ne_eq, Nat.add_one_ne_zero, not_false_eq_true, if_true,
      Nat.add_sub_cancel, List.nil_append]
    rw [faultHandler_delay2 D c]

/-- From the head of the blink loop, the handler is about to turn LED2 off
after `delay + 2` steps. -/
theorem faultHandler_to_ledOff (D : Nat) :
    runHandler (faultHandlerStep false D) (1 + (D + 1)) .ledOn = (.ledOff, [.d6on]) := by
  rw [runHandler_add, runHandler_one]
  simp [faultHandlerStep, faultHandler_delay1]

/-- One round of the blink loop takes `2 * delay + 4` steps and comes back
to the head of the loop. -/
theorem faultHandler_period (D : Nat) :
    runHandler (faultHandlerStep false D) ((1 + (D + 1)) + (1 + (D + 1))) .ledOn
      = (.ledOn, [.d6on, .d6off]) := by
  rw [runHandler_add, faultHandler_to_ledOff, runHandler_add, runHandler_one]
  simp [faultHandlerStep, faultHandler_delay2]

theorem faultHandler_rounds (D : Nat) : ∀ j,
    (runHandler (faultHandlerStep false D) (j * ((1 + (D + 1)) + (1 + (D + 1)))) .ledOn).1
      = .ledOn
  | 0 => by simp [runHandler]
  | j + 1 => by
    rw [Nat.succ_mul, runHandler_add, faultHandler_rounds D j, faultHandler_period]

/-- A step never leads to the control point `returned`, nor, in a debug
build, to the reset. -/
theorem faultHandler_safe (NDEBUG : Bool) (D : Nat) (pc : HandlerPc) (h : pc ≠ .returned) :
    (faultHandlerStep NDEBUG D pc).1 ≠ .returned := by
  cases pc <;> simp [faultHandlerStep] at h ⊢ <;> split_ifs <;> simp

theorem runHandler_safe (NDEBUG : Bool) (D : Nat) : ∀ n pc, pc ≠ .returned →
    (runHandler (faultHandlerStep NDEBUG D) n pc).1 ≠ .returned
  | 0, _, h => h
  | n + 1, pc, h => by
    rw [runHandler]
    exact runHandler_safe NDEBUG D n _ (faultHandler_safe NDEBUG D pc h)

/-- In a debug build the control points of the reset are not reached and
`NVIC_SystemReset()` is not called. -/
theorem runHandler_debug_noReset (D : Nat) : ∀ n pc,
    pc ≠ .reset → pc ≠ .inReset →
    (runHandler (faultHandlerStep false D) n pc).1 ≠ .reset ∧
    (runHandler (faultHandlerStep false D) n pc).1 ≠ .inReset ∧
    Action.NVIC_SystemReset ∉ (runHandler (faultHandlerStep false D) n pc).2
  | 0, _, h1, h2 => ⟨h1, h2, by simp [runHandler]⟩
  | n + 1, pc, h1, h2 => by
    rw [runHandler]
    have hs : (faultHandlerStep false D pc).1 ≠ .reset ∧
        (faultHandlerStep false D pc).1 ≠ .inReset ∧
        Action.NVIC_SystemReset ∉ (faultHandlerStep false D pc).2 := by
      cases pc <;> simp [faultHandlerStep] at h1 h2 ⊢ <;> split_ifs <;> simp
    obtain ⟨i1, i2, i3⟩ := runHandler_debug_noReset D n _ hs.1 hs.2.1
    exact ⟨i1, i2, by simp [List.mem_append, hs.2.2, i3]⟩

/-- The specification of an assertion handler holds of the shared body, run
from its entry or from the call in `assert_failed`. -/
theorem faultHandler_spec (NDEBUG : Bool) (D : Nat) (pc : HandlerPc)
    (hpc : pc = .entry ∨ pc = .call) :
    HandlerSpec NDEBUG (fun n => runHandler (faultHandlerStep NDEBUG D) n pc) := by
  -- the number of steps before the body of the handler is entered
  obtain ⟨d, hd⟩ : ∃ d, runHandler (faultHandlerStep NDEBUG D) d pc = (.entry, []) := by
    rcases hpc with rfl | rfl
    · exact ⟨0, rfl⟩
    · exact ⟨1, by simp [runHandler, faultHandlerStep]⟩
  have hne : pc ≠ .returned := by rcases hpc with rfl | rfl <;> simp
  -- after one more step interrupts are masked
  have h1 : runHandler (faultHandlerStep NDEBUG D) (d + 1) pc
      = (if NDEBUG then .reset else .ledOn, [.cpsid_i]) := by
    rw [runHandler_add, hd, runHandler_one]
    simp [faultHandlerStep]
  have hfrom : ∀ n, runHandler (faultHandlerStep NDEBUG D) ((d + 1) + n) pc
      = ((runHandler (faultHandlerStep NDEBUG D) n (if NDEBUG then .reset else .ledOn)).1,
         .cpsid_i :: (runHandler (faultHandlerStep NDEBUG D) n
            (if NDEBUG then .reset else .ledOn)).2) := by
    intro n
    rw [runHandler_add, h1]
    simp
  refine ⟨⟨d + 1, ?_⟩, ?_, ?_, ?_⟩
  · intro n hn
    obtain ⟨m, rfl⟩ : ∃ m, n = (d + 1) + m := ⟨n - (d + 1), by omega⟩
    simp only [hfrom, List.head?_cons]
  · intro n
    exact runHandler_safe NDEBUG D n pc hne
  · intro hdbg
    subst hdbg
    simp only [Bool.false_eq_true, if_false] at hfrom
    refine ⟨?_, ?_, ?_⟩
    · intro n
      refine ⟨(d + 1) + n * ((1 + (D + 1)) + (1 + (D + 1))), by nlinarith, ?_⟩
      simp only []
      rw [show d + 1 + n * (1 + (D + 1) + (1 + (D + 1))) + 1
          = (d + 1) + (n * (1 + (D + 1) + (1 + (D + 1))) + 1) by omega, hfrom, hfrom,
        runHandler_add, runHandler_one, faultHandler_rounds]
      simp [faultHandlerStep]
    · intro n
      refine ⟨(d + 1) + (n * ((1 + (D + 1)) + (1 + (D + 1))) + (1 + (D + 1))), by nlinarith, ?_⟩
      simp only []
      rw [show d + 1 + (n * (1 + (D + 1) + (1 + (D + 1))) + (1 + (D + 1))) + 1
          = (d + 1) + ((n * (1 + (D + 1) + (1 + (D + 1))) + (1 + (D + 1))) + 1) by omega,
        hfrom, hfrom, runHandler_add _ (_ + _) 1, runHandler_one,
        runHandler_add _ (n * _) (1 + (D + 1))]
      have hr := faultHandler_rounds D n
      rw [hr, faultHandler_to_ledOff]
      simp [faultHandlerStep]
    · intro n
      have hpc1 : pc ≠ .reset := by rcases hpc with rfl | rfl <;> simp
      have hpc2 : pc ≠ .inReset := by rcases hpc with rfl | rfl <;> simp
      obtain ⟨_, i2, i3⟩ := runHandler_debug_noReset D n pc hpc1 hpc2
      exact ⟨i3, i2⟩
  · intro hnd
    subst hnd
    simp only [if_true] at hfrom
    have hreset : ∀ m, runHandler (faultHandlerStep true D) m .inReset = (.inReset, []) := by
      intro m
      induction m with
      | zero => rfl
      | succ m ih => rw [runHandler, faultHandlerStep]; simp [faultHandlerStep, ih]
    refine ⟨d + 2, ?_⟩
    intro n hn
    obtain ⟨m, rfl⟩ : ∃ m, n = (d + 1) + (1 + m) := ⟨n - (d + 2), by omega⟩
    simp only []
    rw [hfrom, runHandler_add, runHandler_one]
    simp [faultHandlerStep, hreset]

/-- Claim C10 (assertion handlers): for every module name and location and
in both build configurations, `Q_onAssert` of the C BSP and
`DBC_fault_handler` and `assert_failed` of the two C++ BSPs mask interrupts
as their first action and never return; in a debug build they turn LED2 on
and off for ever and never reset; in an `NDEBUG` build their last action is
`NVIC_SystemReset()`. -/
theorem assertion_handlers_never_return (NDEBUG : Bool) (module : String) (loc : Int) :
    HandlerSpec NDEBUG (Q_onAssert NDEBUG module loc) ∧
    HandlerSpec NDEBUG (DBC_fault_handler_h743 NDEBUG module loc) ∧
    HandlerSpec NDEBUG (assert_failed_h743 NDEBUG module loc) ∧
    HandlerSpec NDEBUG (DBC_fault_handler_l053 NDEBUG module loc) ∧
    HandlerSpec NDEBUG (assert_failed_l053 NDEBUG module loc) :=
  ⟨faultHandler_spec NDEBUG 1000000 .entry (Or.inl rfl),
   faultHandler_spec NDEBUG 1000000 .entry (Or.inl rfl),
   faultHandler_spec NDEBUG 1000000 .call (Or.inr rfl),
   faultHandler_spec NDEBUG 10000 .entry (Or.inl rfl),
   faultHandler_spec NDEBUG 10000 .call (Or.inr rfl)⟩

/-! ## Assertions and build configurations (claims C11, C14, C15, C16) -/

/-- Claim C11 (assertions can be compiled out): for `exerciseFPU`, for
`BSP_getWorkEvtBlinky1/3` (all three BSPs) and for `Blinky3::init`, whose
checked expressions only read state, on every input on which the build with
assertions enabled raises no assertion, the build with assertions disabled
gives the same result and the same state. -/
theorem assertions_compile_out {D : Type} (F : FPU D) (file : String) (sizeofElem : Nat)
    (S : AppSignals) (s : Blinky3State) (x : D) (num : Nat) (ie : Option Evt) :
    ((exerciseFPU_c F false file x).assertionFailed = false →
      exerciseFPU_c F true file x = exerciseFPU_c F false file x) ∧
    ((exerciseFPU_cpp F false x).assertionFailed = false →
      exerciseFPU_cpp F true x = exerciseFPU_cpp F false x) ∧
    (assertionFailed (BSP_getWorkEvtBlinky1_c false file sizeofElem S num) = false →
      BSP_getWorkEvtBlinky1_c true file sizeofElem S num
        = BSP_getWorkEvtBlinky1_c false file sizeofElem S num) ∧
    (assertionFailed (BSP_getWorkEvtBlinky3_c false file sizeofElem S num) = false →
      BSP_getWorkEvtBlinky3_c true file sizeofElem S num
        = BSP_getWorkEvtBlinky3_c false file sizeofElem S num) ∧
    (assertionFailed (getWorkEvtBlinky1_h743 false sizeofElem S num) = false →
      getWorkEvtBlinky1_h743 true sizeofElem S num = getWorkEvtBlinky1_h743 false sizeofElem S num) ∧
    (assertionFailed (getWorkEvtBlinky3_h743 false sizeofElem S num) = false →
      getWorkEvtBlinky3_h743 true sizeofElem S num = getWorkEvtBlinky3_h743 false sizeofElem S num) ∧
    (assertionFailed (getWorkEvtBlinky1_l053 false sizeofElem S num) = false →
      getWorkEvtBlinky1_l053 true sizeofElem S num = getWorkEvtBlinky1_l053 false sizeofElem S num) ∧
    (assertionFailed (getWorkEvtBlinky3_l053 false sizeofElem S num) = false →
      getWorkEvtBlinky3_l053 true sizeofElem S num = getWorkEvtBlinky3_l053 false sizeofElem S num) ∧
    ((Blinky3.init_build false S s ie).assertionFailed = false →
      Blinky3.init_build true S s ie = Blinky3.init_build false S s ie) ∧
    Blinky3.init_build false S s ie = Blinky3.init S s ie := by
  refine ⟨?_, ?_, ?_, ?_, ?_, ?_, ?_, ?_, ?_, rfl⟩
  · simp only [exerciseFPU_c, Outcome.assertionFailed, Q_ENSURE, Q_ENSURE_ID, Q_ASSERT_ID,
      CExpr.pure]
    split_ifs <;> simp [Abort.isAssertion]
  · simp only [exerciseFPU_cpp, Outcome.assertionFailed, DBC_ASSERT, DBC_REQUIRE, CExpr.pure]
    split_ifs <;> simp [Abort.isAssertion]
  all_goals
    first
    | (simp only [BSP_getWorkEvtBlinky1_c, BSP_getWorkEvtBlinky3_c, getWorkEvtBlinky1_h743,
        getWorkEvtBlinky3_h743, getWorkEvtBlinky1_l053, getWorkEvtBlinky3_l053, Q_REQUIRE,
        Q_REQUIRE_ID, Q_ASSERT_ID, DBC_ASSERT, DBC_REQUIRE, CExpr.pure, assertionFailed]
       split_ifs <;> simp [Abort.isAssertion, assertionFailed])
    | skip
  · cases ie with
    | none =>
      simp [Blinky3.init_build, Blinky3.init, Blinky3.init_check, DBC_REQUIRE,
        Outcome.assertionFailed, Abort.isAssertion]
    | some e =>
      by_cases h : e.sig = S.BLINKY_WORK_SIG
      · cases e <;>
          simp_all [Blinky3.init_build, Blinky3.init, Blinky3.init_check, DBC_REQUIRE,
            Outcome.assertionFailed, Abort.isAssertion, Evt.sig, Evt.blinkyTicks,
            Evt.blinkyToggles]
      · simp [Blinky3.init_build, Blinky3.init, Blinky3.init_check, DBC_REQUIRE,
          Outcome.assertionFailed, Abort.isAssertion, h]

/-- Claim C11 at concrete inputs: the first entry of the Blinky1 table and
an initial work event for Blinky3. -/
theorem assertions_compile_out_witness :
    BSP_getWorkEvtBlinky1_c true "bsp.c" 6 sigEnum 0
      = BSP_getWorkEvtBlinky1_c false "bsp.c" 6 sigEnum 0 ∧
    Blinky3.init_build true sigEnum { me := Blinky3.ctor sigEnum 3, armed := [] }
        (some (.blinkyWork 6 20 5))
      = Blinky3.init_build false sigEnum { me := Blinky3.ctor sigEnum 3, armed := [] }
        (some (.blinkyWork 6 20 5)) :=
  ⟨(assertions_compile_out (D := Nat)
      { sin := id, cos := id, pow := Nat.pow, add := Nat.add, lt := fun a b => decide (a < b),
        two := 2, lower := 0, upper := 2 }
      "bsp.c" 6 sigEnum { me := Blinky3.ctor sigEnum 3, armed := [] } 0 0
      (some (.blinkyWork 6 20 5))).2.2.1 (by decide),
   (assertions_compile_out (D := Nat)
      { sin := id, cos := id, pow := Nat.pow, add := Nat.add, lt := fun a b => decide (a < b),
        two := 2, lower := 0, upper := 2 }
      "bsp.c" 6 sigEnum { me := Blinky3.ctor sigEnum 3, armed := [] } 0 0
      (some (.blinkyWork 6 20 5))).2.2.2.2.2.2.2.2.1 (by decide)⟩

/-- Claim C14 (assertions enabled): with `Q_NASSERT` not defined,
`Q_ASSERT_ID`, `Q_REQUIRE_ID`, `Q_ENSURE_ID`, `Q_INVARIANT_ID` and
`Q_ALLEGE_ID` evaluate the expression exactly once, leave the state that
this one evaluation leaves, and call `Q_onAssert(module, id)` if and only if
the expression is false; `Q_ERROR_ID(id)` calls `Q_onAssert(module, id)`
unconditionally. -/
theorem assertions_enabled {σ : Type} (module : String) (id : Nat) (expr : CExpr σ) (s : σ) :
    (∀ M ∈ [Q_ASSERT_ID false module id expr s, Q_REQUIRE_ID false module id expr s,
            Q_ENSURE_ID false module id expr s, Q_INVARIANT_ID false module id expr s,
            Q_ALLEGE_ID false module id expr s],
      M.evals = 1 ∧ M.state = (expr s).2 ∧
      (M.abort = some (.assertion module id) ↔ (expr s).1 = false) ∧
      (M.abort = none ↔ (expr s).1 = true)) ∧
    Q_ERROR_ID false module id = some (.assertion module id) := by
  refine ⟨?_, rfl⟩
  intro M hM
  simp only [Q_REQUIRE_ID, Q_ENSURE_ID, Q_INVARIANT_ID, Q_ALLEGE_ID, Q_ASSERT_ID,
    Bool.false_eq_true, if_false, List.mem_cons, List.mem_singleton, or_self,
    List.not_mem_nil, or_false] at hM
  subst hM
  cases h : (expr s).1 <;> simp [h]

/-- Claim C15 (assertions disabled): with `Q_NASSERT` defined, `Q_ASSERT_ID`
does not evaluate the expression, leaves the state as it is and never calls
`Q_onAssert`; `Q_ERROR_ID` does nothing; `Q_ALLEGE_ID` still evaluates the
expression exactly once, but never calls `Q_onAssert`, whatever the value of
the expression. -/
theorem assertions_disabled {σ : Type} (module : String) (id : Nat) (expr : CExpr σ) (s : σ) :
    Q_ASSERT_ID true module id expr s = { state := s, evals := 0, abort := none } ∧
    Q_ERROR_ID true module id = none ∧
    Q_ALLEGE_ID true module id expr s = { state := (expr s).2, evals := 1, abort := none } :=
  ⟨rfl, rfl, rfl⟩

/-- The number of elements of a two-element table, as `Q_DIM` and
`ARRAY_NELEM` compute it. -/
theorem Q_DIM_table {α : Type} (sizeofElem : Nat) (h : 0 < sizeofElem) (array_ : List α) :
    Q_DIM sizeofElem array_ = array_.length ∧ ARRAY_NELEM sizeofElem array_ = array_.length := by
  simp [Q_DIM, ARRAY_NELEM, Nat.mul_div_cancel _ h]

/-- Claim C16 (work-event tables): in each of the three BSPs and for every
`num`, `getWorkEvtBlinky1(num)` and `getWorkEvtBlinky3(num)` call the
assertion handler if and only if `num >= 2`, the table length that `Q_DIM` /
`ARRAY_NELEM` compute; for `num < 2` the index is in bounds and the result is
the `num`-th entry, an event with signal `BLINKY_WORK_SIG` and
`(toggles, ticks)` equal to `(40, 5)`, `(30, 7)` for Blinky1 and `(20, 5)`,
`(10, 3)` for Blinky3, the same in the three BSPs. -/
theorem getWorkEvt_tables (file : String) (sizeofElem : Nat) (h : 0 < sizeofElem)
    (S : AppSignals) (num : Nat) :
    ((assertionFailed (BSP_getWorkEvtBlinky1_c false file sizeofElem S num) = true ↔ 2 ≤ num) ∧
     (assertionFailed (BSP_getWorkEvtBlinky3_c false file sizeofElem S num) = true ↔ 2 ≤ num) ∧
     (assertionFailed (getWorkEvtBlinky1_h743 false sizeofElem S num) = true ↔ 2 ≤ num) ∧
     (assertionFailed (getWorkEvtBlinky3_h743 false sizeofElem S num) = true ↔ 2 ≤ num) ∧
     (assertionFailed (getWorkEvtBlinky1_l053 false sizeofElem S num) = true ↔ 2 ≤ num) ∧
     (assertionFailed (getWorkEvtBlinky3_l053 false sizeofElem S num) = true ↔ 2 ≤ num)) ∧
    (num < 2 →
      ∃ e₁ e₃, (workBlinky1 S)[num]? = some e₁ ∧ (workBlinky3 S)[num]? = some e₃ ∧
        BSP_getWorkEvtBlinky1_c false file sizeofElem S num = .ok e₁ ∧
        getWorkEvtBlinky1_h743 false sizeofElem S num = .ok e₁ ∧
        getWorkEvtBlinky1_l053 false sizeofElem S num = .ok e₁ ∧
        BSP_getWorkEvtBlinky3_c false file sizeofElem S num = .ok e₃ ∧
        getWorkEvtBlinky3_h743 false sizeofElem S num = .ok e₃ ∧
        getWorkEvtBlinky3_l053 false sizeofElem S num = .ok e₃) ∧
    (BSP_getWorkEvtBlinky1_c false file sizeofElem S 0 = .ok (.blinkyWork S.BLINKY_WORK_SIG 40 5) ∧
     BSP_getWorkEvtBlinky1_c false file sizeofElem S 1 = .ok (.blinkyWork S.BLINKY_WORK_SIG 30 7) ∧
     BSP_getWorkEvtBlinky3_c false file sizeofElem S 0 = .ok (.blinkyWork S.BLINKY_WORK_SIG 20 5) ∧
     BSP_getWorkEvtBlinky3_c false file sizeofElem S 1 = .ok (.blinkyWork S.BLINKY_WORK_SIG 10 3)) ∧
    (2 ≤ num →
      BSP_getWorkEvtBlinky1_c false file sizeofElem S num = .error (.assertion file 263) ∧
      BSP_getWorkEvtBlinky3_c false file sizeofElem S num = .error (.assertion file 281) ∧
      getWorkEvtBlinky1_h743 false sizeofElem S num
        = .error (.assertion "bsp_nucleo-h743zi" 500) ∧
      getWorkEvtBlinky3_h743 false sizeofElem S num
        = .error (.assertion "bsp_nucleo-h743zi" 600) ∧
      getWorkEvtBlinky1_l053 false sizeofElem S num
        = .error (.assertion "bsp_nucleo-l053r8" 500) ∧
      getWorkEvtBlinky3_l053 false sizeofElem S num
        = .error (.assertion "bsp_nucleo-l053r8" 600)) := by
  have hd1 := (Q_DIM_table sizeofElem h (workBlinky1 S))
  have hd3 := (Q_DIM_table sizeofElem h (workBlinky3 S))
  have hl1 : (workBlinky1 S).length = 2 := rfl
  have hl3 : (workBlinky3 S).length = 2 := rfl
  have key : ∀ n, (n < 2 ∨ 2 ≤ n) := fun n => Nat.lt_or_ge n 2
  simp only [BSP_getWorkEvtBlinky1_c, BSP_getWorkEvtBlinky3_c, getWorkEvtBlinky1_h743,
    getWorkEvtBlinky3_h743, getWorkEvtBlinky1_l053, getWorkEvtBlinky3_l053, Q_REQUIRE,
    Q_REQUIRE_ID, Q_ASSERT_ID, DBC_ASSERT, DBC_REQUIRE, CExpr.pure, hd1.1, hd1.2, hd3.1, hd3.2,
    hl1, hl3, Bool.false_eq_true, if_false]
  rcases key num with hn | hn
  · have hcases : num = 0 ∨ num = 1 := by omega
    rcases hcases with rfl | rfl <;>
      simp [assertionFailed, tableEntry, workBlinky1, workBlinky3]
  · have h2 : ¬ num < 2 := by omega
    simp [hn, h2, assertionFailed, Abort.isAssertion, tableEntry, workBlinky1, workBlinky3]

/-- Claim C16 at a concrete input: an element size of 6 bytes and the index
1, and the index 2 just outside the table. -/
theorem getWorkEvt_tables_witness :
    BSP_getWorkEvtBlinky1_c false "bsp.c" 6 sigEnum 1 = .ok (.blinkyWork 6 30 7) ∧
    getWorkEvtBlinky3_l053 false 6 sigEnum 2 = .error (.assertion "bsp_nucleo-l053r8" 600) :=
  ⟨(getWorkEvt_tables "bsp.c" 6 (by decide) sigEnum 1).2.2.1.2.1,
   ((getWorkEvt_tables "bsp.c" 6 (by decide) sigEnum 2).2.2.2 (by decide)).2.2.2.2.2⟩

/-! ## Interrupt binding and the idle hook (claims C12, C13) -/

/-- Claim C12 (task-to-interrupt binding on the NUCLEO-L053R8): in both
configurations, `BSP::init` assigns an interrupt to each of the four active
objects, the handler of that interrupt calls `activate()` on this active
object and on no other, every handler activates exactly one active object,
and the four interrupts are pairwise distinct. -/
theorem irq_binding (REGULAR_IRQS : Bool) :
    (∀ ao : AO, ∃ irq, irqOf REGULAR_IRQS ao = some irq ∧
      activatedBy REGULAR_IRQS irq = some [ao]) ∧
    (∀ h ∈ irqHandlers REGULAR_IRQS, h.2.length = 1) ∧
    ((BSP_init_setIRQ REGULAR_IRQS).map Prod.snd).Nodup ∧
    ((irqHandlers REGULAR_IRQS).map Prod.fst).Nodup ∧
    (BSP_init_setIRQ REGULAR_IRQS).map Prod.fst = allAOs ∧
    (irqHandlers REGULAR_IRQS).map Prod.fst = (BSP_init_setIRQ REGULAR_IRQS).map Prod.snd := by
  cases REGULAR_IRQS
  · refine ⟨?_, by decide, by decide, by decide, by decide, by decide⟩
    intro ao
    cases ao
    · exact ⟨.reserved 19, by decide, by decide⟩
    · exact ⟨.reserved 14, by decide, by decide⟩
    · exact ⟨.reserved 18, by decide, by decide⟩
    · exact ⟨.reserved 16, by decide, by decide⟩
  · refine ⟨?_, by decide, by decide, by decide, by decide, by decide⟩
    intro ao
    cases ao
    · exact ⟨.I2C2_IRQn, by decide, by decide⟩
    · exact ⟨.PVD_IRQn, by decide, by decide⟩
    · exact ⟨.TSC_IRQn, by decide, by decide⟩
    · exact ⟨.RTC_IRQn, by decide, by decide⟩

/-- Claim C13 (idle hook of SST0): in both build configurations and whatever
the LED functions and `__WFI()` do to the interrupt enable, `SST_onIdleCond`
of the C BSP and `SST::onIdleCond` of the C++ BSP end with
`SST_PORT_INT_ENABLE()` on their single path, so they return with interrupts
enabled, in particular when called with interrupts disabled. -/
theorem idle_hook_enables_interrupts (NDEBUG : Bool) (other : Action → Bool → Bool)
    (en : Bool) :
    intEnabledAfter other (SST_onIdleCond NDEBUG) en = true ∧
    intEnabledAfter other (SST_onIdleCond_cpp NDEBUG) en = true ∧
    (SST_onIdleCond NDEBUG).getLast? = some .SST_PORT_INT_ENABLE ∧
    (SST_onIdleCond_cpp NDEBUG).getLast? = some .SST_PORT_INT_ENABLE ∧
    (SST_onIdleCond NDEBUG).count .SST_PORT_INT_ENABLE = 1 ∧
    (SST_onIdleCond_cpp NDEBUG).count .SST_PORT_INT_ENABLE = 1 := by
  cases NDEBUG <;>
    simp [intEnabledAfter, SST_onIdleCond, SST_onIdleCond_cpp, Action.intEnabled,
      List.count_cons]

/-! ## Event downcast (claim C17) -/

theorem Evt.wellTyped_buttonWork (S : AppSignals) (s toggles : Nat)
    (h : s ≠ S.BLINKY_WORK_SIG) : (Evt.buttonWork s toggles).WellTyped S := by
  refine ⟨fun hs => absurd hs h, fun _ => ⟨⟨s, toggles⟩, rfl, rfl⟩⟩

theorem Evt.wellTyped_blinkyWork (S : AppSignals) (s toggles ticks : Nat)
    (h1 : s ≠ S.BUTTON_PRESSED_SIG) (h2 : s ≠ S.BUTTON_RELEASED_SIG) :
    (Evt.blinkyWork s toggles ticks).WellTyped S := by
  refine ⟨fun _ => ⟨⟨s, toggles, ticks⟩, rfl, rfl, rfl⟩, fun hs => ?_⟩
  rcases hs with hs | hs
  · exact absurd hs h1
  · exact absurd hs h2

theorem Evt.wellTyped_other (S : AppSignals) (e : Evt) (h0 : e.sig ≠ S.BLINKY_WORK_SIG)
    (h1 : e.sig ≠ S.BUTTON_PRESSED_SIG) (h2 : e.sig ≠ S.BUTTON_RELEASED_SIG) :
    e.WellTyped S := by
  refine ⟨fun hs => absurd hs h0, fun hs => ?_⟩
  rcases hs with hs | hs
  · exact absurd hs h1
  · exact absurd hs h2

/-- Claim C17 (event downcast round trip): downcasting the reference to the
base event of a `ButtonWorkEvt` or `BlinkyWorkEvt` yields that domain event,
so the receiver reads back the `sig`, `toggles` and `ticks` that the poster
stored; and every event that the sources define (the events posted by the
three tick handlers and by `Button2b_dispatch`, the entries of the work-event
tables, the time event of `Blinky3`) is of the domain type that the receiver
of its signal downcasts it to. -/
theorem evt_downcast_roundtrip (S : AppSignals) (hS : S.EnumDistinct) :
    (∀ d : ButtonWorkEvt, evt_downcast_ButtonWorkEvt d.ref = some d ∧
      d.ref.sig = d.super ∧ d.ref.buttonToggles = some d.toggles) ∧
    (∀ d : BlinkyWorkEvt, evt_downcast_BlinkyWorkEvt d.ref = some d ∧
      d.ref.sig = d.super ∧ d.ref.blinkyToggles = some d.toggles ∧
      d.ref.blinkyTicks = some d.ticks) ∧
    (∀ b idr ao e, Action.post ao e ∈ (SysTick_Handler_c S b idr).2 → e.WellTyped S) ∧
    (∀ b idr ao e, Action.post ao e ∈ (SysTick_Handler_cpp S b idr).2 → e.WellTyped S) ∧
    (∀ b idr ao e, Action.post ao e ∈ (SysTick_Handler_l053 S b idr).2 → e.WellTyped S) ∧
    (∀ q file e' ao e, Action.post ao e ∈ (Button2b_dispatch q file S e').trace →
      e.WellTyped S) ∧
    (∀ e ∈ workBlinky1 S ++ workBlinky3 S, e.WellTyped S) ∧
    (∀ addr, (Blinky3.ctor S addr).m_te.evt.WellTyped S) := by
  obtain ⟨hc, hcpp⟩ := hS
  simp only [List.nodup_cons, List.mem_cons, List.mem_singleton, not_or, List.not_mem_nil,
    not_false_eq_true, List.nodup_nil, and_true] at hc hcpp
  obtain ⟨⟨t1, t2, t3, t4, t5⟩, ⟨p1, p2, p3, p4⟩, ⟨r1, r2, r3⟩, ⟨w1, w2⟩, _⟩ := hc
  obtain ⟨⟨o1, o2, o3, o4, o5⟩, _⟩ := hcpp
  have hpress := Evt.wellTyped_buttonWork S S.BUTTON_PRESSED_SIG 60 p2
  have hrel := Evt.wellTyped_buttonWork S S.BUTTON_RELEASED_SIG 80 r1
  have hfp := Evt.wellTyped_buttonWork S S.FORWARD_PRESSED_SIG 60 (Ne.symm w1)
  have hfr := Evt.wellTyped_buttonWork S S.FORWARD_RELEASED_SIG 80 (Ne.symm w2)
  have htick := Evt.wellTyped_other S (.base S.TICK_SIG) t3 t1 t2
  have hwork : ∀ a b, (Evt.blinkyWork S.BLINKY_WORK_SIG a b).WellTyped S :=
    fun a b => Evt.wellTyped_blinkyWork S _ a b (Ne.symm p2) (Ne.symm r1)
  refine ⟨fun d => ⟨rfl, rfl, rfl⟩, fun d => ⟨rfl, rfl, rfl, rfl⟩, ?_, ?_, ?_, ?_, ?_, ?_⟩
  · intro b idr ao e he
    simp only [SysTick_Handler_c] at he
    split_ifs at he <;> simp at he <;> casesm* _ ∨ _, _ ∧ _ <;> subst_vars <;> assumption
  · intro b idr ao e he
    simp only [SysTick_Handler_cpp] at he
    split_ifs at he <;> simp at he <;> casesm* _ ∨ _, _ ∧ _ <;> subst_vars <;> assumption
  · intro b idr ao e he
    simp only [SysTick_Handler_l053] at he
    split_ifs at he <;> simp at he <;> casesm* _ ∨ _, _ ∧ _ <;> subst_vars <;> assumption
  · intro q file e' ao e he
    unfold Button2b_dispatch at he
    have hmem : ∀ n, Action.post ao e ∉ toggleLoop .d3on .d3off n := by
      intro n
      induction n with
      | zero => simp [toggleLoop]
      | succ n ih => simp [toggleLoop, ih]
    split_ifs at he
    · cases hb : e'.buttonToggles <;> rw [hb] at he <;> simp [hmem] at he <;>
        (obtain ⟨-, rfl⟩ := he; exact hwork _ _)
    · cases hb : e'.buttonToggles <;> rw [hb] at he <;> simp [hmem] at he <;>
        (obtain ⟨-, rfl⟩ := he; exact hwork _ _)
    · simp at he
  · intro e he
    simp only [workBlinky1, workBlinky3, List.cons_append, List.nil_append, List.mem_cons,
      List.mem_singleton, List.not_mem_nil, or_false] at he
    rcases he with rfl | rfl | rfl | rfl <;> exact hwork _ _
  · intro addr
    exact Evt.wellTyped_other S _ o3 o1 o2

/-- Claim C17 at the concrete assignment of the signal enumerators: the
press event of the tick handlers comes back from the downcast unchanged. -/
theorem evt_downcast_roundtrip_witness :
    sigEnum.EnumDistinct ∧
    evt_downcast_ButtonWorkEvt (ButtonWorkEvt.ref { super := 4, toggles := 60 })
      = some { super := 4, toggles := 60 } :=
  ⟨by decide, ((evt_downcast_roundtrip sigEnum (by decide)).1 { super := 4, toggles := 60 }).1⟩

/-! ## The queue indices (claim C18) -/

/-- Under the representation invariant, the difference of the indices is
`n_used` modulo the capacity. -/
theorem Queue.indexDiff_of_inv {α : Type} {q : Queue α} (hq : q.Inv) (hc : 0 < q.capacity) :
    q.indexDiff = ((q.n_used % q.capacity : Nat) : Int) := by
  obtain ⟨_, _, h | ⟨_, hhead⟩⟩ := hq
  · omega
  · unfold Queue.indexDiff
    rw [hhead]
    push_cast
    rw [Int.sub_emod, Int.emod_emod_of_dvd _ (dvd_refl _), ← Int.sub_emod]
    congr 1
    omega

/-- Claim C18, as stated, fails: the queue of capacity 2 reached by two posts
is full, `n_used = 2`, while `(head - tail) mod capacity = 0`. -/
theorem queue_full_index_fails :
    ∃ t : Task Nat, Task.run (Task.start [0, 0]) [.post 1, .post 2] = .ok t ∧
      0 < t.queue.n_used ∧ t.queue.n_used = t.queue.capacity ∧
      (t.queue.n_used : Int) ≠ t.queue.indexDiff :=
  ⟨_, rfl, by decide, by decide, by decide⟩

/-- Claim C18, amended: in every state that the queue of a task with a
buffer of at least one slot reaches from `start` by posts and activations,
`(head - tail) mod capacity` equals `n_used mod capacity`; hence
`n_used == (head - tail) mod capacity` when `0 < n_used < capacity`, while in
the full queue `head == tail` and `(head - tail) mod capacity == 0`; and the
queue is empty (it holds no reference, a pop returns none, an activation
finds nothing to dispatch) if and only if `n_used == 0`. -/
theorem queue_index_invariant {α : Type} (qbuf : List α) (ops : List (TaskOp α)) (t : Task α)
    (h : Task.run (Task.start qbuf) ops = .ok t) (hc : 0 < qbuf.length) :
    t.queue.indexDiff = ((t.queue.n_used % t.queue.capacity : Nat) : Int) ∧
    (0 < t.queue.n_used → t.queue.n_used < t.queue.capacity →
      (t.queue.n_used : Int) = t.queue.indexDiff) ∧
    (t.queue.n_used = t.queue.capacity → t.queue.head = t.queue.tail ∧ t.queue.indexDiff = 0) ∧
    (t.queue.contents = [] ↔ t.queue.n_used = 0) ∧
    ((t.queue.pop).1 = none ↔ t.queue.n_used = 0) ∧
    (t.activate = .error .PopFromEmptyQueue ↔ t.queue.n_used = 0) := by
  obtain ⟨hinv, hcap⟩ := Task.run_inv ops _ t (Queue.inv_start qbuf) h
  have hcap' : 0 < t.queue.capacity := by rw [hcap]; exact hc
  have hdiff := Queue.indexDiff_of_inv hinv hcap'
  refine ⟨hdiff, ?_, ?_, ?_, ?_, ?_⟩
  · intro _ hlt
    rw [hdiff, Nat.mod_eq_of_lt hlt]
  · intro hfull
    obtain ⟨_, _, h0 | ⟨htail, hhead⟩⟩ := hinv
    · omega
    · refine ⟨?_, ?_⟩
      · rw [hhead, hfull, Nat.add_mod_right, Nat.mod_eq_of_lt htail]
      · rw [hdiff, hfull, Nat.mod_self]
        rfl
  · rw [← List.length_eq_zero, Queue.length_contents]
  · constructor
    · intro hnone
      by_contra hne
      obtain ⟨_, _, e, he⟩ := Queue.contents_pop hinv (Nat.pos_of_ne_zero hne)
      rw [he] at hnone
      cases hnone
    · intro hz
      unfold Queue.pop
      simp [hz]
  · unfold Task.activate
    constructor
    · intro ha
      by_contra hne
      rw [if_pos (Nat.pos_of_ne_zero hne)] at ha
      cases ha
    · intro hz
      simp [hz]

/-- Claim C18, amended, at a concrete run: a queue of size 2 that is filled,
drained by one activation and filled again, with both indices wrapped. -/
theorem queue_index_invariant_witness :
    Queue.indexDiff { buf := [9, 8], capacity := 2, head := 1, tail := 1, n_used := 2 }
      = ((2 % 2 : Nat) : Int) :=
  (queue_index_invariant [0, 0] [.post 7, .post 8, .activate, .post 9]
    { queue := { buf := [9, 8], capacity := 2, head := 1, tail := 1, n_used := 2 },
      irqPending := true } (by rfl) (by decide)).1

/-! ## The debouncer, bit by bit (claims C19, C20) -/

/-- The test `(x & (1U << n)) != 0U` reads bit `n` of `x`. -/
theorem and_one_shiftLeft_ne_zero (x n : Nat) : x &&& (1 <<< n) ≠ 0 ↔ x.testBit n = true := by
  rw [Nat.one_shiftLeft]
  constructor
  · intro h
    by_contra hb
    apply h
    apply Nat.eq_of_testBit_eq
    intro i
    rw [Nat.testBit_and, Nat.testBit_two_pow, Nat.zero_testBit]
    by_cases hi : n = i
    · subst hi; simp [hb]
    · simp [hi]
  · intro hb h0
    have := congrArg (fun y => y.testBit n) h0
    simp [Nat.testBit_two_pow_self, hb] at this

/-- The debounce rule, bit by bit. -/
theorem debounced_testBit (b : ButtonsDebouncing) (current i : Nat) :
    (debounced b current).depressed.testBit i
      = if b.previous.testBit i = current.testBit i then current.testBit i
        else b.depressed.testBit i := by
  simp only [debounced, Nat.testBit_and, Nat.testBit_or]
  cases b.previous.testBit i <;> cases current.testBit i <;> cases b.depressed.testBit i <;> rfl

/-- Claim C19 (debounce step rule): after one invocation of
`SysTick_Handler` with the sample `current`, each bit of the new `depressed`
word is 1 if the bit is 1 in both `previous` and `current`, is 0 if it is 0 in
both, and keeps its old value when `previous` and `current` differ in that
bit; and the new `previous` equals `current`.  The sample is the port word in
the two NUCLEO-H743ZI handlers and its complement in the NUCLEO-L053R8 one. -/
theorem debounce_step_rule (S : AppSignals) (b : ButtonsDebouncing) (idr i : Nat) :
    (∀ r current, (r = (SysTick_Handler_c S b idr).1 ∧ current = u32 idr) ∨
        (r = (SysTick_Handler_cpp S b idr).1 ∧ current = u32 idr) ∨
        (r = (SysTick_Handler_l053 S b idr).1 ∧ current = u32Not idr) →
      (b.previous.testBit i = true → current.testBit i = true →
        r.depressed.testBit i = true) ∧
      (b.previous.testBit i = false → current.testBit i = false →
        r.depressed.testBit i = false) ∧
      (b.previous.testBit i ≠ current.testBit i →
        r.depressed.testBit i = b.depressed.testBit i) ∧
      r.previous = current) := by
  intro r current h
  have hr : r = debounced b current := by
    rcases h with ⟨rfl, rfl⟩ | ⟨rfl, rfl⟩ | ⟨rfl, rfl⟩ <;> rfl
  subst hr
  refine ⟨?_, ?_, ?_, rfl⟩
  · intro h1 h2
    rw [debounced_testBit, h1, h2]; rfl
  · intro h1 h2
    rw [debounced_testBit, h1, h2]; rfl
  · intro hne
    rw [debounced_testBit, if_neg hne]

/-- Claim C19 at a concrete input: a one-sample glitch on bit 13 leaves the
debounced bit as it was. -/
theorem debounce_step_rule_witness :
    (SysTick_Handler_c sigEnum { depressed := 0, previous := 0 } PIN).1.depressed.testBit 13
      = Nat.testBit 0 13 :=
  ((debounce_step_rule sigEnum { depressed := 0, previous := 0 } PIN 13 _ (u32 PIN)
    (Or.inl ⟨rfl, rfl⟩)).2.2.1 (by decide))

/-- The posts to `AO_Button2a` of a tick handler, from the old and the new
debounced state of B1. -/
theorem button_posts_of_bits (S : AppSignals) (b : ButtonsDebouncing) (current : Nat) :
    (if ((b.depressed ^^^ (debounced b current).depressed) &&& (1 <<< B1_PIN)) ≠ 0 then
        if ((debounced b current).depressed &&& (1 <<< B1_PIN)) ≠ 0 then
          [Evt.buttonWork S.FORWARD_PRESSED_SIG 60, Evt.buttonWork S.BUTTON_PRESSED_SIG 60]
        else [Evt.buttonWork S.FORWARD_RELEASED_SIG 80, Evt.buttonWork S.BUTTON_RELEASED_SIG 80]
      else [])
    = if b1 b.depressed = b1 (debounced b current).depressed then []
      else if b1 (debounced b current).depressed then
        [Evt.buttonWork S.FORWARD_PRESSED_SIG 60, Evt.buttonWork S.BUTTON_PRESSED_SIG 60]
      else [Evt.buttonWork S.FORWARD_RELEASED_SIG 80, Evt.buttonWork S.BUTTON_RELEASED_SIG 80] := by
  simp only [and_one_shiftLeft_ne_zero, Nat.testBit_xor, b1]
  split_ifs <;> simp_all

theorem postsTo_c (S : AppSignals) (b : ButtonsDebouncing) (idr : Nat) :
    postsTo .AO_Button2a (SysTick_Handler_c S b idr).2
      = if b1 b.depressed = b1 (debounced b (u32 idr)).depressed then []
        else if b1 (debounced b (u32 idr)).depressed then
          [Evt.buttonWork S.FORWARD_PRESSED_SIG 60, Evt.buttonWork S.BUTTON_PRESSED_SIG 60]
        else [Evt.buttonWork S.FORWARD_RELEASED_SIG 80, Evt.buttonWork S.BUTTON_RELEASED_SIG 80] := by
  rw [← button_posts_of_bits]
  simp only [SysTick_Handler_c, debounced, postsTo]
  split_ifs <;> simp

theorem postsTo_cpp (S : AppSignals) (b : ButtonsDebouncing) (idr : Nat) :
    postsTo .AO_Button2a (SysTick_Handler_cpp S b idr).2
      = if b1 b.depressed = b1 (debounced b (u32 idr)).depressed then []
        else if b1 (debounced b (u32 idr)).depressed then
          [Evt.buttonWork S.FORWARD_PRESSED_SIG 60, Evt.buttonWork S.BUTTON_PRESSED_SIG 60]
        else [Evt.buttonWork S.FORWARD_RELEASED_SIG 80, Evt.buttonWork S.BUTTON_RELEASED_SIG 80] := by
  rw [← button_posts_of_bits]
  simp only [SysTick_Handler_cpp, debounced, postsTo]
  split_ifs <;> simp

theorem postsTo_l053 (S : AppSignals) (b : ButtonsDebouncing) (idr : Nat) :
    postsTo .AO_Button2a (SysTick_Handler_l053 S b idr).2
      = if b1 b.depressed = b1 (debounced b (u32Not idr)).depressed then []
        else if b1 (debounced b (u32Not idr)).depressed then
          [Evt.buttonWork S.FORWARD_PRESSED_SIG 60, Evt.buttonWork S.BUTTON_PRESSED_SIG 60]
        else [Evt.buttonWork S.FORWARD_RELEASED_SIG 80, Evt.buttonWork S.BUTTON_RELEASED_SIG 80] := by
  rw [← button_posts_of_bits]
  simp only [SysTick_Handler_l053, debounced, postsTo]
  split_ifs <;> simp

/-- Claim C20 (press / release posting): in each of the three tick handlers,
on a tick where the debounced bit B1 changes from 0 to 1 the posts to
`AO_Button2a` are exactly `FORWARD_PRESSED_SIG` then `BUTTON_PRESSED_SIG`,
each with `toggles = 60`; on a tick where it changes from 1 to 0 they are
exactly `FORWARD_RELEASED_SIG` then `BUTTON_RELEASED_SIG`, each with
`toggles = 80`; on a tick where it does not change there is none. -/
theorem press_release_posting (S : AppSignals) (b : ButtonsDebouncing) (idr : Nat) :
    ∀ r, r = SysTick_Handler_c S b idr ∨ r = SysTick_Handler_cpp S b idr ∨
        r = SysTick_Handler_l053 S b idr →
      (b1 b.depressed = false → b1 r.1.depressed = true →
        postsTo .AO_Button2a r.2
          = [.buttonWork S.FORWARD_PRESSED_SIG 60, .buttonWork S.BUTTON_PRESSED_SIG 60]) ∧
      (b1 b.depressed = true → b1 r.1.depressed = false →
        postsTo .AO_Button2a r.2
          = [.buttonWork S.FORWARD_RELEASED_SIG 80, .buttonWork S.BUTTON_RELEASED_SIG 80]) ∧
      (b1 r.1.depressed = b1 b.depressed → postsTo .AO_Button2a r.2 = []) := by
  intro r hr
  obtain ⟨current, hstate, hposts⟩ : ∃ current, r.1 = debounced b current ∧
      postsTo .AO_Button2a r.2
        = if b1 b.depressed = b1 (debounced b current).depressed then []
          else if b1 (debounced b current).depressed then
            [Evt.buttonWork S.FORWARD_PRESSED_SIG 60, Evt.buttonWork S.BUTTON_PRESSED_SIG 60]
          else [Evt.buttonWork S.FORWARD_RELEASED_SIG 80,
                Evt.buttonWork S.BUTTON_RELEASED_SIG 80] := by
    rcases hr with rfl | rfl | rfl
    · exact ⟨u32 idr, rfl, postsTo_c S b idr⟩
    · exact ⟨u32 idr, rfl, postsTo_cpp S b idr⟩
    · exact ⟨u32Not idr, rfl, postsTo_l053 S b idr⟩
  rw [hposts, hstate]
  refine ⟨?_, ?_, ?_⟩
  · intro h0 h1
    simp [h0, h1]
  · intro h1 h0
    simp [h0, h1]
  · intro heq
    simp [heq]

/-- Claim C20 at a concrete input: the second consecutive sample with B1 set
makes the C handler post the press pair. -/
theorem press_release_posting_witness :
    postsTo .AO_Button2a (SysTick_Handler_c sigEnum { depressed := 0, previous := PIN } PIN).2
      = [.buttonWork 7 60, .buttonWork 4 60] :=
  (press_release_posting sigEnum { depressed := 0, previous := PIN } PIN _ (Or.inl rfl)).1
    (by decide) (by decide)

/-! ## Button events over a run of ticks (claims C21, C22, C23) -/

theorem buttonPosts_nil (handler : ButtonsDebouncing → Nat → ButtonsDebouncing × List Action)
    (b : ButtonsDebouncing) : buttonPosts handler b [] = [] := rfl

theorem buttonPosts_cons (handler : ButtonsDebouncing → Nat → ButtonsDebouncing × List Action)
    (b : ButtonsDebouncing) (idr : Nat) (rest : List Nat) :
    buttonPosts handler b (idr :: rest)
      = postsTo .AO_Button2a (handler b idr).2 ++ buttonPosts handler (handler b idr).1 rest :=
  rfl

theorem runTicks_cons_state (handler : ButtonsDebouncing → Nat → ButtonsDebouncing × List Action)
    (b : ButtonsDebouncing) (idr : Nat) (rest : List Nat) :
    (runTicks handler b (idr :: rest)).1 = (runTicks handler (handler b idr).1 rest).1 := rfl

theorem isDebouncer_c (S : AppSignals) : IsDebouncer S (SysTick_Handler_c S) u32 :=
  fun b idr => ⟨rfl, postsTo_c S b idr⟩

theorem isDebouncer_cpp (S : AppSignals) : IsDebouncer S (SysTick_Handler_cpp S) u32 :=
  fun b idr => ⟨rfl, postsTo_cpp S b idr⟩

theorem isDebouncer_l053 (S : AppSignals) : IsDebouncer S (SysTick_Handler_l053 S) u32Not :=
  fun b idr => ⟨rfl, postsTo_l053 S b idr⟩

/-- The posts of one tick are no pair or one pair of the alternation. -/
theorem IsDebouncer.tick_alt {S : AppSignals}
    {handler : ButtonsDebouncing → Nat → ButtonsDebouncing × List Action} {sample : Nat → Nat}
    (h : IsDebouncer S handler sample) (b : ButtonsDebouncing) (idr : Nat) :
    ∃ k, k ≤ 1 ∧ postsTo .AO_Button2a (handler b idr).2 = altPairs S (b1 b.depressed) k ∧
      b1 (handler b idr).1.depressed = (b1 b.depressed ^^ decide (k % 2 = 1)) := by
  obtain ⟨hs, hp⟩ := h b idr
  rw [hp, hs]
  generalize b1 (debounced b (sample idr)).depressed = y
  generalize b1 b.depressed = x
  cases x <;> cases y
  · exact ⟨0, by decide, by simp [altPairs], by simp⟩
  · exact ⟨1, by decide, by simp [altPairs, pressPair], by simp⟩
  · exact ⟨1, by decide, by simp [altPairs, releasePair], by simp⟩
  · exact ⟨0, by decide, by simp [altPairs], by simp⟩

theorem altPairs_add (S : AppSignals) : ∀ (k : Nat) (p : Bool) (n : Nat),
    altPairs S p (k + n) = altPairs S p k ++ altPairs S (p ^^ decide (k % 2 = 1)) n
  | 0, p, n => by simp [altPairs]
  | k + 1, p, n => by
    rw [Nat.add_right_comm, altPairs, altPairs, altPairs_add S k (!p) n, List.append_assoc]
    congr 2
    cases p <;> rcases Nat.mod_two_eq_zero_or_one k with hk | hk <;>
      simp [Nat.add_mod, hk]

/-- Over a run of ticks the posts to `AO_Button2a` alternate, starting with
the pair that changes the debounced state of B1 held at the start. -/
theorem IsDebouncer.run_alt {S : AppSignals}
    {handler : ButtonsDebouncing → Nat → ButtonsDebouncing × List Action} {sample : Nat → Nat}
    (h : IsDebouncer S handler sample) : ∀ (reads : List Nat) (b : ButtonsDebouncing),
    ∃ n, buttonPosts handler b reads = altPairs S (b1 b.depressed) n ∧
      b1 (runTicks handler b reads).1.depressed = (b1 b.depressed ^^ decide (n % 2 = 1))
  | [], b => ⟨0, rfl, by simp [runTicks]⟩
  | idr :: rest, b => by
    obtain ⟨k, _, hk1, hk2⟩ := h.tick_alt b idr
    obtain ⟨n, hn1, hn2⟩ := h.run_alt rest (handler b idr).1
    refine ⟨k + n, ?_, ?_⟩
    · rw [buttonPosts_cons, hk1, hn1, hk2, altPairs_add]
    · rw [runTicks_cons_state, hn2, hk2]
      cases b1 b.depressed <;>
        rcases Nat.mod_two_eq_zero_or_one k with hk | hk <;>
        rcases Nat.mod_two_eq_zero_or_one n with hn | hn <;>
        simp [Nat.add_mod, hk, hn]

/-- The last event of an alternation of pairs. -/
theorem altPairs_getLast (S : AppSignals) : ∀ (n : Nat) (p : Bool),
    (altPairs S p n).getLast?
      = if n = 0 then none
        else if (p ^^ decide (n % 2 = 1)) then some (.buttonWork S.BUTTON_PRESSED_SIG 60)
        else some (.buttonWork S.BUTTON_RELEASED_SIG 80)
  | 0, _ => by simp [altPairs]
  | n + 1, p => by
    rw [altPairs, List.getLast?_append, altPairs_getLast S n (!p)]
    cases p <;> rcases Nat.mod_two_eq_zero_or_one n with hn | hn <;>
      by_cases h0 : n = 0 <;>
      simp [Nat.add_mod, hn, h0, pressPair, releasePair]

/-- Claim C21 (press / release alternation): for every finite sequence of
port samples fed to successive invocations of `SysTick_Handler` from the
initial state, the button events posted to `AO_Button2a` strictly alternate
between a press pair and a release pair, the first pair posted is a press,
and bit 13 of `depressed` is 1 exactly when the last button event posted was
a press; for each of the three tick handlers. -/
theorem press_release_alternation (S : AppSignals) (reads : List Nat) :
    Alternates S (SysTick_Handler_c S) reads ∧
    Alternates S (SysTick_Handler_cpp S) reads ∧
    Alternates S (SysTick_Handler_l053 S) reads := by
  have key : ∀ handler sample, IsDebouncer S handler sample → Alternates S handler reads := by
    intro handler sample h
    obtain ⟨n, h1, h2⟩ := h.run_alt reads ButtonsDebouncing.init
    have hinit : b1 ButtonsDebouncing.init.depressed = false := by decide
    rw [hinit] at h1 h2
    refine ⟨n, h1, ?_, ?_⟩
    · rw [h2]; simp
    · rw [h1, h2, altPairs_getLast]
      rcases Nat.mod_two_eq_zero_or_one n with hn | hn
      · by_cases h0 : n = 0 <;> simp [hn, h0]
      · have h0 : n ≠ 0 := by rintro rfl; simp at hn
        simp [hn, h0]
  exact ⟨key _ _ (isDebouncer_c S), key _ _ (isDebouncer_cpp S), key _ _ (isDebouncer_l053 S)⟩

theorem b1_u32 (x : Nat) : b1 (u32 x) = x.testBit B1_PIN := by
  show (x % 2 ^ 32).testBit 13 = x.testBit 13
  rw [Nat.testBit_mod_two_pow]
  simp

theorem b1_u32Not (x : Nat) : b1 (u32Not x) = !x.testBit B1_PIN := by
  show ((2 ^ 32 - 1) ^^^ (x % 2 ^ 32)).testBit 13 = !x.testBit 13
  rw [Nat.testBit_xor, Nat.testBit_mod_two_pow, Nat.testBit_two_pow_sub_one]
  simp

theorem b1_debounced (b : ButtonsDebouncing) (current : Nat) :
    b1 (debounced b current).depressed
      = if b1 b.previous = b1 current then b1 current else b1 b.depressed :=
  debounced_testBit b current B1_PIN

/-- The posts to `AO_Button2a` depend on bit B1 of the debounce state and of
the samples only. -/
theorem IsDebouncer.run_b1 {S : AppSignals}
    {handler : ButtonsDebouncing → Nat → ButtonsDebouncing × List Action} {sample : Nat → Nat}
    (h : IsDebouncer S handler sample)
    (hs : ∀ x y, x.testBit B1_PIN = y.testBit B1_PIN → b1 (sample x) = b1 (sample y))
    {reads₁ reads₂ : List Nat} (hr : AgreeOnB1 reads₁ reads₂) :
    ∀ b b' : ButtonsDebouncing, b1 b.depressed = b1 b'.depressed →
      b1 b.previous = b1 b'.previous →
      buttonPosts handler b reads₁ = buttonPosts handler b' reads₂ := by
  induction hr with
  | nil => intro b b' _ _; rfl
  | @cons x y l₁ l₂ hxy _ ih =>
    intro b b' hd hp
    obtain ⟨s1, p1⟩ := h b x
    obtain ⟨s2, p2⟩ := h b' y
    have hcur : b1 (sample x) = b1 (sample y) := hs x y hxy
    have hnew : b1 (debounced b (sample x)).depressed = b1 (debounced b' (sample y)).depressed := by
      rw [b1_debounced, b1_debounced, hd, hp, hcur]
    rw [buttonPosts_cons, buttonPosts_cons, p1, p2, hd, hnew, s1, s2]
    congr 1
    exact ih _ _ hnew hcur

/-- Claim C22 (pin isolation): for any two sequences of port samples that
agree on bit 13 at every tick, each tick handler started from the same
debounce state posts the same sequence of button events to `AO_Button2a`. -/
theorem pin_isolation (S : AppSignals) (b : ButtonsDebouncing) (reads₁ reads₂ : List Nat)
    (h : AgreeOnB1 reads₁ reads₂) :
    buttonPosts (SysTick_Handler_c S) b reads₁ = buttonPosts (SysTick_Handler_c S) b reads₂ ∧
    buttonPosts (SysTick_Handler_cpp S) b reads₁ = buttonPosts (SysTick_Handler_cpp S) b reads₂ ∧
    buttonPosts (SysTick_Handler_l053 S) b reads₁
      = buttonPosts (SysTick_Handler_l053 S) b reads₂ := by
  refine ⟨?_, ?_, ?_⟩
  · exact (isDebouncer_c S).run_b1 (fun x y hxy => by rw [b1_u32, b1_u32, hxy]) h b b rfl rfl
  · exact (isDebouncer_cpp S).run_b1 (fun x y hxy => by rw [b1_u32, b1_u32, hxy]) h b b rfl rfl
  · exact (isDebouncer_l053 S).run_b1 (fun x y hxy => by rw [b1_u32Not, b1_u32Not, hxy]) h b b
      rfl rfl

/-- Claim C22 at a concrete input: two runs whose samples differ in every bit
but bit 13. -/
theorem pin_isolation_witness :
    buttonPosts (SysTick_Handler_c sigEnum) ButtonsDebouncing.init [8192, 8192, 0, 0]
      = buttonPosts (SysTick_Handler_c sigEnum) ButtonsDebouncing.init
          [4294967295, 8193, 4294959103, 7] :=
  (pin_isolation sigEnum ButtonsDebouncing.init [8192, 8192, 0, 0]
    [4294967295, 8193, 4294959103, 7]
    (List.Forall₂.cons (by decide) (List.Forall₂.cons (by decide)
      (List.Forall₂.cons (by decide) (List.Forall₂.cons (by decide) List.Forall₂.nil))))).1

theorem u32Not_u32Not (x : Nat) : u32Not (u32Not x) = u32 x := by
  apply Nat.eq_of_testBit_eq
  intro i
  simp only [u32Not, u32, Nat.testBit_xor, Nat.testBit_mod_two_pow, Nat.testBit_two_pow_sub_one]
  by_cases hi : i < 32 <;> simp [hi]

/-- Two tick handlers that debounce the same samples post the same button
events and reach the same state. -/
theorem IsDebouncer.run_eq {S : AppSignals}
    {h₁ h₂ : ButtonsDebouncing → Nat → ButtonsDebouncing × List Action} {s₁ s₂ : Nat → Nat}
    (d₁ : IsDebouncer S h₁ s₁) (d₂ : IsDebouncer S h₂ s₂) (f : Nat → Nat)
    (hf : ∀ x, s₂ (f x) = s₁ x) : ∀ (reads : List Nat) (b : ButtonsDebouncing),
    buttonPosts h₂ b (reads.map f) = buttonPosts h₁ b reads
  | [], _ => rfl
  | x :: rest, b => by
    obtain ⟨e1, p1⟩ := d₁ b x
    obtain ⟨e2, p2⟩ := d₂ b (f x)
    rw [List.map_cons, buttonPosts_cons, buttonPosts_cons, p1, p2, e1, e2, hf x,
      IsDebouncer.run_eq d₁ d₂ f hf rest]

/-- Claim C23 (port equivalence of the debouncer): for every sequence of
port samples and from every debounce state, the SST0/C and the SST0/C++
NUCLEO-H743ZI tick handlers post the same sequence of button events
(signals, `toggles`, order) to `AO_Button2a`, and the NUCLEO-L053R8 handler
posts that same sequence when it is given the bitwise complement of each
sample. -/
theorem port_equivalence (S : AppSignals) (b : ButtonsDebouncing) (reads : List Nat) :
    buttonPosts (SysTick_Handler_cpp S) b reads = buttonPosts (SysTick_Handler_c S) b reads ∧
    buttonPosts (SysTick_Handler_l053 S) b (reads.map u32Not)
      = buttonPosts (SysTick_Handler_c S) b reads := by
  constructor
  · have := (isDebouncer_c S).run_eq (isDebouncer_cpp S) id (fun _ => rfl) reads b
    simpa using this
  · exact (isDebouncer_c S).run_eq (isDebouncer_l053 S) u32Not u32Not_u32Not reads b

/-! ## Button2b and the work events (claims C24, C25) -/

theorem toggleLoop_mem (ledOn ledOff : Action) : ∀ n, ∀ a ∈ toggleLoop ledOn ledOff n,
    a = ledOn ∨ a = ledOff
  | 0, a, h => by simp [toggleLoop] at h
  | n + 1, a, h => by
    simp only [toggleLoop, List.mem_cons] at h
    rcases h with h | h | h
    · exact Or.inl h
    · exact Or.inr h
    · exact toggleLoop_mem ledOn ledOff n a h

theorem postsTo_toggleLoop (ao : AO) : ∀ n, postsTo ao (toggleLoop .d3on .d3off n) = []
  | 0 => rfl
  | n + 1 => by
    have ih := postsTo_toggleLoop ao n
    simp only [postsTo] at ih
    simp [toggleLoop, postsTo, ih]

/-- What `Button2b_dispatch` does with a button event: it posts the given
work event to `AO_Blinky3`, first, and then only toggles the LED. -/
theorem Button2b_trace_shape (Q_NASSERT : Bool) (file : String) (S : AppSignals) (e : Evt)
    (bw : Evt)
    (h : (e.sig = S.BUTTON_PRESSED_SIG ∧ bw = Button2b_bw1evt S) ∨
      (e.sig ≠ S.BUTTON_PRESSED_SIG ∧ e.sig = S.BUTTON_RELEASED_SIG ∧ bw = Button2b_bw2evt S)) :
    ∃ rest, (Button2b_dispatch Q_NASSERT file S e).trace = .post .AO_Blinky3 bw :: rest ∧
      (∀ a ∈ rest, a = .d3on ∨ a = .d3off) ∧
      (∀ ao, postsTo ao (Button2b_dispatch Q_NASSERT file S e).trace
        = if ao = .AO_Blinky3 then [bw] else []) := by
  have hshape : ∃ n, (Button2b_dispatch Q_NASSERT file S e).trace
      = .post .AO_Blinky3 bw :: toggleLoop .d3on .d3off n := by
    unfold Button2b_dispatch
    rcases h with ⟨h1, rfl⟩ | ⟨h1, h2, rfl⟩
    · rw [if_pos h1]
      cases e.buttonToggles with
      | none => exact ⟨0, rfl⟩
      | some n => exact ⟨n, rfl⟩
    · rw [if_neg h1, if_pos h2]
      cases e.buttonToggles with
      | none => exact ⟨0, rfl⟩
      | some n => exact ⟨n, rfl⟩
  obtain ⟨n, hn⟩ := hshape
  refine ⟨_, hn, toggleLoop_mem _ _ n, ?_⟩
  intro ao
  rw [hn]
  have ht := postsTo_toggleLoop ao n
  simp only [postsTo] at ht ⊢
  rw [List.filterMap_cons]
  by_cases hao : AO.AO_Blinky3 = ao
  · subst hao; simp [ht]
  · have hao' : ¬ ao = AO.AO_Blinky3 := fun h => hao h.symm
    simp [hao, hao', ht]

/-- Claim C24 (Button2b forwarding): for every event with signal
`BUTTON_PRESSED_SIG`, `Button2b_dispatch` posts exactly one event, to
`AO_Blinky3` and to no other active object, the work event with
`BLINKY_WORK_SIG`, `toggles = 20` and `ticks = 4`, and posts it before the
first LED toggle; for every event with signal `BUTTON_RELEASED_SIG` it does
the same with `toggles = 10` and `ticks = 3`; two events with the same
button signal make it post the same event, whatever their payload. -/
theorem Button2b_forwarding (Q_NASSERT : Bool) (file : String) (S : AppSignals)
    (hS : S.BUTTON_PRESSED_SIG ≠ S.BUTTON_RELEASED_SIG) (e e' : Evt) :
    (e.sig = S.BUTTON_PRESSED_SIG →
      ∃ rest, (Button2b_dispatch Q_NASSERT file S e).trace
          = .post .AO_Blinky3 (.blinkyWork S.BLINKY_WORK_SIG 20 4) :: rest ∧
        (∀ a ∈ rest, a = .d3on ∨ a = .d3off) ∧
        (∀ ao, postsTo ao (Button2b_dispatch Q_NASSERT file S e).trace
          = if ao = .AO_Blinky3 then [.blinkyWork S.BLINKY_WORK_SIG 20 4] else [])) ∧
    (e.sig = S.BUTTON_RELEASED_SIG →
      ∃ rest, (Button2b_dispatch Q_NASSERT file S e).trace
          = .post .AO_Blinky3 (.blinkyWork S.BLINKY_WORK_SIG 10 3) :: rest ∧
        (∀ a ∈ rest, a = .d3on ∨ a = .d3off) ∧
        (∀ ao, postsTo ao (Button2b_dispatch Q_NASSERT file S e).trace
          = if ao = .AO_Blinky3 then [.blinkyWork S.BLINKY_WORK_SIG 10 3] else [])) ∧
    (e.sig = S.BUTTON_PRESSED_SIG ∨ e.sig = S.BUTTON_RELEASED_SIG → e'.sig = e.sig →
      ∀ ao, postsTo ao (Button2b_dispatch Q_NASSERT file S e').trace
        = postsTo ao (Button2b_dispatch Q_NASSERT file S e).trace) := by
  have hP : ∀ x : Evt, x.sig = S.BUTTON_PRESSED_SIG → _ :=
    fun x hx => Button2b_trace_shape Q_NASSERT file S x (Button2b_bw1evt S) (Or.inl ⟨hx, rfl⟩)
  have hR : ∀ x : Evt, x.sig = S.BUTTON_RELEASED_SIG → _ :=
    fun x hx => Button2b_trace_shape Q_NASSERT file S x (Button2b_bw2evt S)
      (Or.inr ⟨fun h => hS (h.symm.trans hx), hx, rfl⟩)
  refine ⟨hP e, hR e, ?_⟩
  intro h h' ao
  rcases h with h | h
  · obtain ⟨_, _, _, p1⟩ := hP e h
    obtain ⟨_, _, _, p2⟩ := hP e' (h'.trans h)
    rw [p1, p2]
  · obtain ⟨_, _, _, p1⟩ := hR e h
    obtain ⟨_, _, _, p2⟩ := hR e' (h'.trans h)
    rw [p1, p2]

/-- Claim C24 at concrete events: a release event with 80 toggles, and one
with another payload. -/
theorem Button2b_forwarding_witness :
    postsTo .AO_Blinky3 (Button2b_dispatch false "button2b.c" sigEnum (.buttonWork 5 3)).trace
      = postsTo .AO_Blinky3
          (Button2b_dispatch false "button2b.c" sigEnum (.buttonWork 5 80)).trace :=
  (Button2b_forwarding false "button2b.c" sigEnum (by decide) (.buttonWork 5 80)
    (.buttonWork 5 3)).2.2 (Or.inr (by decide)) (by decide) .AO_Blinky3

theorem TimeEvt.arm_mem (armed : List TimeEvt) (te : TimeEvt) (k p : Nat) :
    { te with ctr := k, interval := p } ∈ TimeEvt.arm armed te k p := by
  unfold TimeEvt.arm
  by_cases hany : armed.any (fun t => decide (t.addr = te.addr)) = true
  · rw [if_pos hany]
    obtain ⟨t, ht, hEq⟩ := List.any_eq_true.1 hany
    refine List.mem_map.2 ⟨t, ht, ?_⟩
    have : t.addr = te.addr := by simpa using hEq
    simp [this]
  · rw [if_neg hany]
    exact List.mem_cons_self _ _

theorem tableEntry_mem {array_ : List Evt} {num : Nat} {e : Evt}
    (h : tableEntry array_ num = .ok e) : e ∈ array_ := by
  unfold tableEntry at h
  cases hg : array_[num]? with
  | none => rw [hg] at h; cases h
  | some x =>
    rw [hg] at h
    cases h
    exact List.getElem?_mem hg

/-- Claim C25 (the arm precondition is met by the application): every
`BlinkyWorkEvt` that the sources define (the entries of the tables for
Blinky1 and Blinky3 in the three BSPs, the two static events of Button2b)
carries `BLINKY_WORK_SIG` and has `ticks > 0`, so the `arm(ticks, ticks)`
that `Blinky3::init` and `Blinky3::dispatch` perform on it has `ctr > 0` and
`interval != 0`: the timer is periodic, never one-shot.  The events returned
by the six table functions and the events posted by `Button2b_dispatch` are
among them. -/
theorem arm_precondition_met (S : AppSignals) (hS : S.BLINKY_WORK_SIG ≠ S.TIMEOUT_SIG)
    (s : Blinky3State) (e : Evt) (he : e ∈ blinkyWorkEvts S) :
    (∃ toggles ticks, e = .blinkyWork S.BLINKY_WORK_SIG toggles ticks ∧ 0 < ticks ∧
      (Blinky3.init S s (some e)).abort = none ∧
      (Blinky3.init S s (some e)).state.armed = TimeEvt.arm s.armed s.me.m_te ticks ticks ∧
      (Blinky3.dispatch S s e).abort = none ∧
      (Blinky3.dispatch S s e).state.armed = TimeEvt.arm s.armed s.me.m_te ticks ticks ∧
      ∃ t ∈ TimeEvt.arm s.armed s.me.m_te ticks ticks,
        t.addr = s.me.m_te.addr ∧ t.ctr = ticks ∧ t.interval = ticks ∧
        0 < t.ctr ∧ t.interval ≠ 0) ∧
    (∀ q file e' ao x, Action.post ao x ∈ (Button2b_dispatch q file S e').trace →
      x ∈ blinkyWorkEvts S) ∧
    (∀ q file sz num x,
      BSP_getWorkEvtBlinky1_c q file sz S num = .ok x ∨
      BSP_getWorkEvtBlinky3_c q file sz S num = .ok x ∨
      getWorkEvtBlinky1_h743 q sz S num = .ok x ∨ getWorkEvtBlinky3_h743 q sz S num = .ok x ∨
      getWorkEvtBlinky1_l053 q sz S num = .ok x ∨ getWorkEvtBlinky3_l053 q sz S num = .ok x →
      x ∈ blinkyWorkEvts S) := by
  refine ⟨?_, ?_, ?_⟩
  · have hall : ∃ toggles ticks, e = .blinkyWork S.BLINKY_WORK_SIG toggles ticks ∧ 0 < ticks := by
      simp only [blinkyWorkEvts, workBlinky1, workBlinky3, Button2b_bw1evt, Button2b_bw2evt,
        List.cons_append, List.nil_append, List.mem_cons, List.mem_singleton,
        List.not_mem_nil, or_false] at he
      rcases he with rfl | rfl | rfl | rfl | rfl | rfl <;>
        exact ⟨_, _, rfl, by decide⟩
    obtain ⟨toggles, ticks, rfl, hpos⟩ := hall
    refine ⟨toggles, ticks, rfl, hpos, ?_, ?_, ?_, ?_, ?_⟩
    · simp [Blinky3.init, Blinky3.init_check, DBC_REQUIRE, Evt.sig, Evt.blinkyTicks,
        Evt.blinkyToggles]
    · simp [Blinky3.init, Blinky3.init_check, DBC_REQUIRE, Evt.sig, Evt.blinkyTicks,
        Evt.blinkyToggles]
    · simp [Blinky3.dispatch, Evt.sig, Evt.blinkyTicks, Evt.blinkyToggles, hS]
    · simp [Blinky3.dispatch, Evt.sig, Evt.blinkyTicks, Evt.blinkyToggles, hS]
    · exact ⟨_, TimeEvt.arm_mem s.armed s.me.m_te ticks ticks, rfl, rfl, rfl, hpos,
        Nat.pos_iff_ne_zero.1 hpos⟩
  · intro q file e' ao x hx
    unfold Button2b_dispatch at hx
    have hmem : ∀ n, Action.post ao x ∉ toggleLoop .d3on .d3off n := by
      intro n hn
      rcases toggleLoop_mem _ _ n _ hn with h | h <;> cases h
    split_ifs at hx
    · cases hb : e'.buttonToggles <;> rw [hb] at hx <;> simp [hmem] at hx <;>
        (obtain ⟨-, rfl⟩ := hx; simp [blinkyWorkEvts, Button2b_bw1evt])
    · cases hb : e'.buttonToggles <;> rw [hb] at hx <;> simp [hmem] at hx <;>
        (obtain ⟨-, rfl⟩ := hx; simp [blinkyWorkEvts, Button2b_bw2evt])
    · simp at hx
  · intro q file sz num x hx
    have h1 : ∀ {r : MacroResult Unit} {arr : List Evt},
        (match r.abort with
          | some a => (Except.error a : Result Evt)
          | none => tableEntry arr num) = .ok x → x ∈ arr := by
      intro r arr h
      cases hr : r.abort with
      | some a => rw [hr] at h; cases h
      | none => rw [hr] at h; exact tableEntry_mem h
    simp only [blinkyWorkEvts, List.mem_append]
    rcases hx with h | h | h | h | h | h
    · exact Or.inl (Or.inl (h1 h))
    · exact Or.inl (Or.inr (h1 h))
    · exact Or.inl (Or.inl (h1 h))
    · exact Or.inl (Or.inr (h1 h))
    · exact Or.inl (Or.inl (h1 h))
    · exact Or.inl (Or.inr (h1 h))

/-- Claim C25 at a concrete event: the second entry of the Blinky3 table. -/
theorem arm_precondition_met_witness :
    Evt.blinkyWork 6 10 3 ∈ blinkyWorkEvts sigEnum ∧
    ∃ toggles ticks, Evt.blinkyWork 6 10 3 = .blinkyWork sigEnum.BLINKY_WORK_SIG toggles ticks ∧
      0 < ticks ∧
      (Blinky3.init sigEnum { me := Blinky3.ctor sigEnum 3, armed := [] }
        (some (.blinkyWork 6 10 3))).abort = none :=
  ⟨by decide,
   match (arm_precondition_met sigEnum (by decide)
      { me := Blinky3.ctor sigEnum 3, armed := [] } (.blinkyWork 6 10 3) (by decide)).1 with
   | ⟨toggles, ticks, h1, h2, h3, _⟩ => ⟨toggles, ticks, h1, h2, h3⟩⟩

end SST
